import Mathlib

/-!
Verification of the OWTF plugin-output manager (`owtf/managers/poutput.py`).

The development shallowly embeds the plugin result store: the record table is
a `List PluginOutput`, the filesystem is the list of existing paths, and every
manager function is a pure Lean function translated statement-by-statement
from the Python source.  Parts of the repository that the manager imports but
that are not part of the source under study (the ORM model declarations, the
configuration object, the worker pool) are modelled from the specification and
carry a doc comment saying so.
-/

set_option maxRecDepth 4096

namespace Owtf

/-- Error raised by the manager for non-integer values in integer fields
(`owtf.lib.exceptions.InvalidParameterType`). -/
structure InvalidParameterType where
  message : String
deriving DecidableEq, Repr

/-- Modelled from the spec: a Result Record row of the record table
(`models.PluginOutput`; the model declarations are not among the source
files).  Fields are those of spec section 3 together with every column the
manager reads or writes.  `-1` is the unset sentinel for both ranks. -/
structure PluginOutput where
  plugin_key : String
  plugin_code : String
  plugin_group : String
  plugin_type : String
  output : String
  error : Option String
  start_time : String
  end_time : String
  status : String
  target_id : Int
  output_path : Option String
  user_rank : Int
  owtf_rank : Int
  user_notes : Option String
deriving DecidableEq, Repr

/-- Modelled from the spec: a queued Work Item (`models.Work`), a pending
(target, plugin) pairing; the manager only ever counts these rows. -/
structure Work where
  target_id : Int
  plugin_key : String
deriving DecidableEq, Repr

/-- Modelled from the spec: a scan Target row (`models.Target`) with its
many-to-many session membership, used only to scope severity aggregation. -/
structure Target where
  id : Int
  sessions : List Int
deriving DecidableEq, Repr

/-- The `plugin` dictionary supplied by the worker pool at save time
(spec section 6: keys group, type, code, key, status, start, end,
owtf_rank, output_path). -/
structure Plugin where
  key : String
  code : String
  group : String
  type : String
  start : String
  end_ : String
  status : String
  output_path : Option String
  owtf_rank : Int
deriving DecidableEq, Repr

/-- Modelled from the spec: the configuration collaborator
(`owtf.config.config_handler`, not among the source files) supplying the
artifact output root and the per-plugin expected output directory. -/
structure Config where
  output_dir_target : String
  plugin_output_dir : Plugin → String

/-- The filesystem, as the list of paths that currently exist. -/
def Fs := List String

/-- `os.path.exists`. -/
def os_path_exists (p : String) (fs : List String) : Bool := fs.contains p

/-- `os.path.join` for the two-argument uses in the manager: a second
component that is absolute wins, otherwise the components are joined with a
single separator. -/
def os_path_join (a b : String) : String :=
  if b.startsWith "/" then b
  else if a = "" then b
  else if a.endsWith "/" then a ++ b
  else a ++ "/" ++ b

/-- `FileOperations.rm_tree`: recursively delete a directory tree — the path
itself and every path below it cease to exist. -/
def rm_tree (p : String) (fs : List String) : List String :=
  fs.filter (fun q => !(q == p || q.startsWith (p ++ "/")))

/-- A single character is an ASCII decimal digit. -/
def isDigitChar (c : Char) : Bool := decide (Char.toNat c ≥ 48) && decide (Char.toNat c ≤ 57)

/-- Decimal value of a digit list (most significant first), accumulator form. -/
def digitsVal (acc : Nat) : List Char → Nat
  | [] => acc
  | c :: cs => digitsVal (acc * 10 + (Char.toNat c - 48)) cs

/-- ASCII whitespace, as stripped by Python `int()` before parsing. -/
def isSpaceChar (c : Char) : Bool :=
  c == ' ' || c == '\t' || c == '\n' || c == '\r'

/-- Python `int(str)`: strip surrounding whitespace, optional sign, then at
least one ASCII decimal digit; `none` models `ValueError`.  (Underscore
separators and non-ASCII digits, which CPython also accepts, are outside the
modelled value domain; no claim exercises them.) -/
def pyInt? (s : String) : Option Int :=
  let t := ((s.toList.dropWhile isSpaceChar).reverse.dropWhile isSpaceChar).reverse
  let core : List Char × Bool :=
    match t with
    | '-' :: rest => (rest, true)
    | '+' :: rest => (rest, false)
    | cs => (cs, false)
  if core.1 ≠ [] && core.1.all isDigitChar then
    let v : Int := Int.ofNat (digitsVal 0 core.1)
    some (if core.2 then -v else v)
  else none

/-- Python `int()` mapped over a list of strings; `none` if any entry fails. -/
def pyInts? : List String → Option (List Int)
  | [] => some []
  | x :: xs =>
    match pyInt? x with
    | none => none
    | some n =>
      match pyInts? xs with
      | none => none
      | some ns => some (n :: ns)

/-- A filter (or patch) field value: either a single string or a list of
strings, as delivered by the request layer. -/
inductive FilterVal where
  | str (s : String)
  | list (l : List String)
deriving DecidableEq, Repr

/-- Python truthiness of an optional filter field: absent, the empty string
and the empty list are all falsy. -/
def truthy : Option FilterVal → Bool
  | none => false
  | some (.str s) => s ≠ ""
  | some (.list l) => l ≠ []

/-- The filter specification dictionary accepted by the Filter Query Engine:
the recognized fields of spec section 4.2, each optional. -/
structure FilterData where
  target_id : Option FilterVal := none
  plugin_key : Option FilterVal := none
  plugin_type : Option FilterVal := none
  plugin_group : Option FilterVal := none
  plugin_code : Option FilterVal := none
  status : Option FilterVal := none
  user_rank : Option FilterVal := none
  owtf_rank : Option FilterVal := none
  offset : Option FilterVal := none
  limit : Option FilterVal := none
deriving DecidableEq, Repr

/-- The empty filter dictionary. -/
def emptyFilter : FilterData := {}

/-- One string-field block of `poutput_gen_query`: if the field is truthy,
a single string filters by equality and a list filters by membership. -/
def applyStrFilter (fv : Option FilterVal) (get : PluginOutput → String)
    (q : List PluginOutput) : List PluginOutput :=
  if truthy fv then
    match fv with
    | some (.str s) => q.filter (fun r => get r == s)
    | some (.list xs) => q.filter (fun r => xs.contains (get r))
    | none => q
  else q

/-- One integer-field block of `poutput_gen_query`: values are parsed with
`int()`; a failed parse raises `InvalidParameterType`. -/
def applyIntFilter (fv : Option FilterVal) (get : PluginOutput → Int)
    (q : List PluginOutput) : Except InvalidParameterType (List PluginOutput) :=
  if truthy fv then
    match fv with
    | some (.str s) =>
      match pyInt? s with
      | some n => .ok (q.filter (fun r => get r == n))
      | none => .error ⟨"Integer has to be provided for integer fields"⟩
    | some (.list xs) =>
      match pyInts? xs with
      | some ns => .ok (q.filter (fun r => ns.contains (get r)))
      | none => .error ⟨"Integer has to be provided for integer fields"⟩
    | none => .ok q
  else .ok q

/-- The `offset` block: the source applies an offset only when the value is a
list (`isinstance(..., list)`); a truthy non-list value is ignored. -/
def applyOffset (fv : Option FilterVal) (q : List PluginOutput) :
    Except InvalidParameterType (List PluginOutput) :=
  if truthy fv then
    match fv with
    | some (.list (x :: _)) =>
      match pyInt? x with
      | some n => .ok (q.drop n.toNat)
      | none => .error ⟨"Integer has to be provided for integer fields"⟩
    | _ => .ok q
  else .ok q

/-- The `limit` block: as with `offset`, only a list value takes effect. -/
def applyLimit (fv : Option FilterVal) (q : List PluginOutput) :
    Except InvalidParameterType (List PluginOutput) :=
  if truthy fv then
    match fv with
    | some (.list (x :: _)) =>
      match pyInt? x with
      | some n => .ok (q.take n.toNat)
      | none => .error ⟨"Integer has to be provided for integer fields"⟩
    | _ => .ok q
  else .ok q

/-- Comparison used by the default ordering (ascending by `plugin_key`). -/
def keyLe (a b : PluginOutput) : Bool := a.plugin_key ≤ b.plugin_key

/-- The five string-field blocks of `poutput_gen_query` applied, in source
order, to the target-scoped table.  The source also builds a `filter_by` on
`filter_data["target_id"]` but discards its result (the query is not
reassigned), so that field has no effect. -/
def strFilterChain (fd : FilterData) (target_id : Int)
    (db : List PluginOutput) : List PluginOutput :=
  applyStrFilter fd.status (fun r => r.status)
    (applyStrFilter fd.plugin_code (fun r => r.plugin_code)
      (applyStrFilter fd.plugin_group (fun r => r.plugin_group)
        (applyStrFilter fd.plugin_type (fun r => r.plugin_type)
          (applyStrFilter fd.plugin_key (fun r => r.plugin_key)
            (db.filter (fun r => r.target_id == target_id))))))

/-- `poutput_gen_query` up to and including the ordering step: target scoping,
the five string-field blocks, the two integer-field blocks (an error in
either propagates, as the raised exception does), then — unless the query is
for deletion — ordering ascending by `plugin_key`. -/
def poutput_base_query (fd : FilterData) (target_id : Int) (for_delete : Bool)
    (db : List PluginOutput) : Except InvalidParameterType (List PluginOutput) :=
  Except.bind (applyIntFilter fd.user_rank (fun r => r.user_rank)
      (strFilterChain fd target_id db))
    (fun q =>
      Except.bind (applyIntFilter fd.owtf_rank (fun r => r.owtf_rank) q)
        (fun q => .ok (if for_delete then q else q.mergeSort keyLe)))

/-- `poutput_gen_query`: the base query followed by pagination (`offset`
then `limit`), which is therefore applied last, after ordering. -/
def poutput_gen_query (fd : FilterData) (target_id : Int) (for_delete : Bool)
    (db : List PluginOutput) : Except InvalidParameterType (List PluginOutput) :=
  Except.bind (poutput_base_query fd target_id for_delete db)
    (fun q => Except.bind (applyOffset fd.offset q)
      (fun q => applyLimit fd.limit q))

/-- `get_all_poutputs`: runs the generated query and returns its rows (their
conversion to rendered dictionaries belongs to the excluded rendering
layer). -/
def get_all_poutputs (fd : FilterData) (target_id : Int)
    (db : List PluginOutput) : Except InvalidParameterType (List PluginOutput) :=
  poutput_gen_query fd target_id false db

/-- Events of a bulk delete, in execution order. -/
inductive DelEvent where
  | rmTree (path : String)
  | dbDelete
  | commit
deriving DecidableEq, Repr

/-- One loop iteration of `delete_all_poutput`: if the matched record's
`output_path` is truthy, join it to the configured output root and, if that
directory exists, remove its tree; the second component records the removal
events. -/
def deleteArtifactStep (cfg : Config) (st : List String × List DelEvent)
    (plugin : PluginOutput) : List String × List DelEvent :=
  match plugin.output_path with
  | some p =>
    if p ≠ "" then
      let output_path := os_path_join cfg.output_dir_target p
      if os_path_exists output_path st.1 then
        (rm_tree output_path st.1, st.2 ++ [.rmTree output_path])
      else st
    else st
  | none => st

/-- `delete_all_poutput`: generate the query with `for_delete = True`, remove
the artifact directory of every matched record whose path is set and exists,
and only then delete the matched rows and commit.  Returns the new record
table, the new filesystem, and the event trace. -/
def delete_all_poutput (fd : FilterData) (target_id : Int) (cfg : Config)
    (db : List PluginOutput) (fs : List String) :
    Except InvalidParameterType (List PluginOutput × List String × List DelEvent) :=
  match poutput_gen_query fd target_id true db with
  | .error e => .error e
  | .ok matched =>
    let after := matched.foldl (deleteArtifactStep cfg) (fs, [])
    let db2 := db.filter (fun r => !(matched.contains r))
    .ok (db2, after.1, after.2 ++ [.dbDelete, .commit])

/-- Equality on the natural key `(target_id, plugin_group, plugin_type,
plugin_code)` of two Result Records. -/
def natKeyEq (a b : PluginOutput) : Bool :=
  a.target_id == b.target_id && a.plugin_group == b.plugin_group &&
  a.plugin_type == b.plugin_type && a.plugin_code == b.plugin_code

/-- Modelled from the spec: the ORM `session.merge` against the record table,
which is keyed by the natural key `(target_id, plugin_group, plugin_type,
plugin_code)` (the model declarations are not among the source files):
merging upserts — a row with the same natural key is overwritten, otherwise
the row is inserted. -/
def db_merge (db : List PluginOutput) (rec : PluginOutput) : List PluginOutput :=
  if db.any (fun r => natKeyEq rec r) then
    db.map (fun r => if natKeyEq rec r then rec else r)
  else db ++ [rec]

/-- The patch dictionary accepted by `update_poutput`. -/
structure PatchData where
  user_rank : Option FilterVal := none
  user_notes : Option FilterVal := none
deriving DecidableEq, Repr

/-- `update_poutput`: look up the first record matching the
(group, type, code) key via the query engine; if present, apply the
`user_rank` patch (forcing `owtf_rank` to `-1`) and the `user_notes` patch,
then merge and commit.  A failed `int()` parse raises before any merge. -/
def update_poutput (plugin_group plugin_type plugin_code : String)
    (patch_data : PatchData) (target_id : Int) (db : List PluginOutput) :
    Except InvalidParameterType (List PluginOutput) :=
  let plugin_dict : FilterData :=
    { plugin_group := some (.str plugin_group),
      plugin_type := some (.str plugin_type),
      plugin_code := some (.str plugin_code) }
  match poutput_gen_query plugin_dict target_id false db with
  | .error e => .error e
  | .ok l =>
    match l.head? with
    | none => .ok db
    | some obj =>
      let rankVal : Option String :=
        if truthy patch_data.user_rank then
          match patch_data.user_rank with
          | some (.str s) => some s
          | some (.list (x :: _)) => some x
          | _ => none
        else none
      let notesVal : Option String :=
        if truthy patch_data.user_notes then
          match patch_data.user_notes with
          | some (.str s) => some s
          | some (.list (x :: _)) => some x
          | _ => none
        else none
      match rankVal with
      | some s =>
        match pyInt? s with
        | none => .error ⟨"Integer has to be provided for integer fields"⟩
        | some n =>
          let obj := { obj with user_rank := n, owtf_rank := -1 }
          let obj :=
            match notesVal with
            | some msg => { obj with user_notes := some msg }
            | none => obj
          .ok (db_merge db obj)
      | none =>
        let obj :=
          match notesVal with
          | some msg => { obj with user_notes := some msg }
          | none => obj
        .ok (db_merge db obj)

/-- `json.dumps` restricted to the string payloads of the model: quote the
string, escaping backslashes and double quotes. -/
def json_dumps (s : String) : String :=
  let esc := s.toList.foldl
    (fun acc c =>
      if c = '\\' then acc ++ "\\\\"
      else if c = '"' then acc ++ "\\\""
      else acc ++ String.singleton c) ""
  "\"" ++ esc ++ "\""

/-- The Result Record constructed by `save_plugin_output` and
`save_partial_output`: `output_path` is kept only if the plugin's artifact
directory exists on disk; `user_rank` and `user_notes` take the column
defaults (unset). -/
def mkPluginOutput (plugin : Plugin) (output : String) (err : Option String)
    (target_id : Int) (cfg : Config) (fs : List String) : PluginOutput :=
  { plugin_key := plugin.key,
    plugin_code := plugin.code,
    plugin_group := plugin.group,
    plugin_type := plugin.type,
    output := json_dumps output,
    error := err,
    start_time := plugin.start,
    end_time := plugin.end_,
    status := plugin.status,
    target_id := target_id,
    output_path :=
      if os_path_exists (cfg.plugin_output_dir plugin) fs then plugin.output_path
      else none,
    user_rank := -1,
    owtf_rank := plugin.owtf_rank,
    user_notes := none }

/-- `save_plugin_output`: merge the constructed record and commit. -/
def save_plugin_output (plugin : Plugin) (output : String) (target_id : Int)
    (cfg : Config) (fs : List String) (db : List PluginOutput) : List PluginOutput :=
  db_merge db (mkPluginOutput plugin output none target_id cfg fs)

/-- `save_partial_output`: identical to `save_plugin_output` but the record
also carries `error = message`. -/
def save_partial_output (plugin : Plugin) (output : String) (message : String)
    (target_id : Int) (cfg : Config) (fs : List String) (db : List PluginOutput) :
    List PluginOutput :=
  db_merge db (mkPluginOutput plugin output (some message) target_id cfg fs)

/-- The progress snapshot returned by `plugin_count_output`. -/
structure ProgressCounts where
  complete_count : Nat
  left_count : Nat
deriving DecidableEq, Repr

/-- `get_count` over an embedded table: the number of rows. -/
def get_count {α : Type} (rows : List α) : Nat := rows.length

/-- `plugin_count_output`: completed = all plugin output rows; left = queued
work rows plus the worker pool's busy workers (modelled from the spec: the
worker manager is an external collaborator reporting an integer). -/
def plugin_count_output (db : List PluginOutput) (works : List Work)
    (busy_workers : Nat) : ProgressCounts :=
  { complete_count := get_count db, left_count := get_count works + busy_workers }

/-- One severity bucket of the histogram. -/
structure SeverityBucket where
  id : Int
  label : String
  value : Int
deriving DecidableEq, Repr

/-- The result envelope of `get_severity_freq`. -/
structure SeverityFreqResult where
  data : List SeverityBucket
deriving DecidableEq, Repr

/-- The six fixed buckets, Passing first. -/
def initSeverityFrequency : List SeverityBucket :=
  [⟨0, "Passing", 0⟩, ⟨1, "Info", 0⟩, ⟨2, "Low", 0⟩,
   ⟨3, "Medium", 0⟩, ⟨4, "High", 0⟩, ⟨5, "Critical", 0⟩]

/-- Python `l[i]["value"] += 1` on a list: a negative index counts from the
end; an index out of range on either side is an `IndexError` (`none`). -/
def bucketIncrement (l : List SeverityBucket) (i : Int) : Option (List SeverityBucket) :=
  let j : Int := if i < 0 then i + l.length else i
  if j < 0 then none
  else
    match l[j.toNat]? with
    | some b => some (l.set j.toNat { b with value := b.value + 1 })
    | none => none

/-- One record's contribution in `get_severity_freq`: records of targets
outside the session are skipped; a set `user_rank` wins over `owtf_rank`;
both at `-1` means the record is excluded. -/
def severityStep (targets : List Int) (freq : List SeverityBucket)
    (plugin_obj : PluginOutput) : Option (List SeverityBucket) :=
  if targets.contains plugin_obj.target_id then
    if plugin_obj.user_rank ≠ -1 then bucketIncrement freq plugin_obj.user_rank
    else
      if plugin_obj.owtf_rank ≠ -1 then bucketIncrement freq plugin_obj.owtf_rank
      else some freq
  else some freq

/-- The target-id set of a session: ids of the targets whose session list
contains the session. -/
def sessionTargetIds (session_id : Int) (targets : List Target) : List Int :=
  (targets.filter (fun t => t.sessions.contains session_id)).map (fun t => t.id)

/-- `get_severity_freq`: resolve the session's target-id set, scan every
plugin output row, accumulate into the six buckets, and return the reversed
bucket list in the result envelope; `none` models an uncaught
`IndexError`. -/
def get_severity_freq (session_id : Int) (targets : List Target)
    (db : List PluginOutput) : Option SeverityFreqResult :=
  let target_ids := sessionTargetIds session_id targets
  match db.foldlM (severityStep target_ids) initSeverityFrequency with
  | some freq => some ⟨freq.reverse⟩
  | none => none

/-! ## Specification-side predicates

The following definitions restate, in the words of the specification, which
records a filter is meant to select and how severity is meant to be counted;
the theorems below compare them with the translated source functions. -/

/-- Spec reading of a string filter field: absent, empty-string and
empty-list values impose no constraint; otherwise a single string means
equality and a list means membership. -/
def strFieldMatches (fv : Option FilterVal) (x : String) : Bool :=
  match fv with
  | none => true
  | some (.str s) => if s = "" then true else x == s
  | some (.list xs) => if xs = [] then true else xs.contains x

/-- Spec reading of an integer filter field: as for strings, but every value
is integer-parsed before comparison. -/
def intFieldMatches (fv : Option FilterVal) (x : Int) : Bool :=
  match fv with
  | none => true
  | some (.str s) =>
    if s = "" then true
    else
      match pyInt? s with
      | some n => x == n
      | none => false
  | some (.list xs) =>
    if xs = [] then true
    else
      match pyInts? xs with
      | some ns => ns.contains x
      | none => false

/-- Spec reading of a whole filter specification against one record: the
conjunction of the per-field predicates, scoped to the target. -/
def recordMatches (fd : FilterData) (target_id : Int) (r : PluginOutput) : Bool :=
  r.target_id == target_id &&
  strFieldMatches fd.plugin_key r.plugin_key &&
  strFieldMatches fd.plugin_type r.plugin_type &&
  strFieldMatches fd.plugin_group r.plugin_group &&
  strFieldMatches fd.plugin_code r.plugin_code &&
  strFieldMatches fd.status r.status &&
  intFieldMatches fd.user_rank r.user_rank &&
  intFieldMatches fd.owtf_rank r.owtf_rank

/-- The effective severity rank of a record: `user_rank` wins when set. -/
def effRank (r : PluginOutput) : Int :=
  if r.user_rank ≠ -1 then r.user_rank else r.owtf_rank

/-- How many records of the table belong to one of the given targets and have
effective rank `k`. -/
def severityCount (target_ids : List Int) (db : List PluginOutput) (k : Nat) : Nat :=
  db.countP (fun r => target_ids.contains r.target_id && effRank r == (k : Int))

/-- The bucket index Python list indexing resolves a rank to: a negative rank
counts from the end of the six-bucket list. -/
def pyBucketIdx (k : Int) : Int := if k < 0 then k + 6 else k

/-- How many records of the table belong to one of the given targets, carry a
set (non `-1`) effective rank, and land — after Python's negative-index
wrap-around — in bucket `j`. -/
def severityCountWrap (target_ids : List Int) (db : List PluginOutput)
    (j : Nat) : Nat :=
  db.countP (fun r => target_ids.contains r.target_id &&
    !(effRank r == -1) && (pyBucketIdx (effRank r) == (j : Int)))

/-- The record store keeps at most one record per natural key. -/
def keyUnique (db : List PluginOutput) : Prop :=
  ∀ x : PluginOutput, db.countP (fun r => natKeyEq x r) ≤ 1

/-! ## Concrete fixtures used by the concrete theorems -/

/-- A completed run of plugin (g1, t1, c1) on target 1, ranked by the tool. -/
def exRec1 : PluginOutput :=
  ⟨"k1", "c1", "g1", "t1", "o", none, "s", "e", "done", 1, none, -1, 2, none⟩

/-- A run of plugin (g2, t2, c2) on target 1 with a user rank and an artifact
directory. -/
def exRec2 : PluginOutput :=
  ⟨"k2", "c2", "g2", "t2", "o", none, "s", "e", "err", 1, some "p1", 3, -1, none⟩

/-- A run on target 2. -/
def exRec3 : PluginOutput :=
  ⟨"k0", "c1", "g1", "t1", "o", none, "s", "e", "done", 2, none, -1, -1, none⟩

/-- A record whose user rank 6 lies beyond the last bucket. -/
def exRecRank6 : PluginOutput :=
  ⟨"k6", "c6", "g6", "t6", "o", none, "s", "e", "done", 1, none, 6, -1, none⟩

/-- A record whose user rank -2 is below the unset sentinel. -/
def exRecRankNeg2 : PluginOutput :=
  ⟨"k7", "c7", "g7", "t7", "o", none, "s", "e", "done", 1, none, -2, -1, none⟩

/-- A record whose user rank -7 lies below even the wrap-around range of the
six-bucket list. -/
def exRecRankNeg7 : PluginOutput :=
  ⟨"k8", "c8", "g8", "t8", "o", none, "s", "e", "done", 1, none, -7, -1, none⟩

/-- A worker-supplied plugin dictionary for (g1, t1, c1). -/
def exPlugin1 : Plugin :=
  ⟨"k1", "c1", "g1", "t1", "st1", "en1", "done", some "p1", 2⟩

/-- A second run of the same plugin (same natural key), different outcome. -/
def exPlugin2 : Plugin :=
  ⟨"k1", "c1", "g1", "t1", "st2", "en2", "crashed", some "p2", 4⟩

/-- A concrete configuration collaborator. -/
def exCfg : Config :=
  ⟨"/root/out", fun p => "/plugin-dir/" ++ p.key⟩

/-! ## Basic lemmas on the embedded operations -/

theorem natKeyEq_iff (a b : PluginOutput) :
    natKeyEq a b = true ↔
      a.target_id = b.target_id ∧ a.plugin_group = b.plugin_group ∧
      a.plugin_type = b.plugin_type ∧ a.plugin_code = b.plugin_code := by
  simp [natKeyEq, and_assoc]

theorem natKeyEq_refl (a : PluginOutput) : natKeyEq a a = true := by
  simp [natKeyEq]

theorem pyInt?_empty : pyInt? "" = none := by decide

theorem pyInt?_ne_empty {s : String} {n : Int} (h : pyInt? s = some n) : s ≠ "" := by
  intro hs
  rw [hs, pyInt?_empty] at h
  exact Option.noConfusion h

theorem pyInts?_none {xs : List String} {x : String}
    (hx : x ∈ xs) (hp : pyInt? x = none) : pyInts? xs = none := by
  induction xs with
  | nil => cases hx
  | cons y ys ih =>
    rcases List.mem_cons.mp hx with h | h
    · subst h
      simp [pyInts?, hp]
    · cases hy : pyInt? y with
      | none => simp [pyInts?, hy]
      | some m => simp [pyInts?, hy, ih h]

theorem mem_applyStrFilter {fv : Option FilterVal} {get : PluginOutput → String}
    {q : List PluginOutput} {r : PluginOutput} :
    r ∈ applyStrFilter fv get q ↔ r ∈ q ∧ strFieldMatches fv (get r) = true := by
  match fv with
  | none => simp [applyStrFilter, truthy, strFieldMatches]
  | some (.str s) =>
    by_cases hs : s = "" <;>
      simp [applyStrFilter, truthy, strFieldMatches, hs, List.mem_filter]
  | some (.list xs) =>
    by_cases hxs : xs = [] <;>
      simp [applyStrFilter, truthy, strFieldMatches, hxs, List.mem_filter]

theorem applyIntFilter_ok_mem {fv : Option FilterVal} {get : PluginOutput → Int}
    {q q2 : List PluginOutput} (h : applyIntFilter fv get q = .ok q2)
    (r : PluginOutput) : r ∈ q2 ↔ r ∈ q ∧ intFieldMatches fv (get r) = true := by
  match fv with
  | none =>
    simp only [applyIntFilter, truthy] at h
    cases h
    simp [intFieldMatches]
  | some (.str s) =>
    by_cases hs : s = ""
    · simp only [applyIntFilter, truthy, hs] at h
      simp only [ne_eq, not_true_eq_false, if_false, reduceCtorEq] at h
      cases h
      simp [intFieldMatches, hs]
    · simp only [applyIntFilter, truthy, ne_eq, hs, not_false_eq_true, if_true] at h
      cases hp : pyInt? s with
      | none => rw [hp] at h; cases h
      | some n =>
        rw [hp] at h
        cases h
        simp [intFieldMatches, hs, hp, List.mem_filter]
  | some (.list xs) =>
    by_cases hxs : xs = []
    · simp only [applyIntFilter, truthy, hxs] at h
      simp only [ne_eq, not_true_eq_false, if_false, reduceCtorEq] at h
      cases h
      simp [intFieldMatches, hxs]
    · simp only [applyIntFilter, truthy, ne_eq, hxs, not_false_eq_true, if_true] at h
      cases hp : pyInts? xs with
      | none => rw [hp] at h; cases h
      | some ns =>
        rw [hp] at h
        cases h
        simp [intFieldMatches, hxs, hp, List.mem_filter]

theorem applyIntFilter_none (get : PluginOutput → Int) (q : List PluginOutput) :
    applyIntFilter none get q = .ok q := rfl

theorem applyOffset_none (q : List PluginOutput) : applyOffset none q = .ok q := rfl

theorem applyLimit_none (q : List PluginOutput) : applyLimit none q = .ok q := rfl

theorem applyOffset_str (s : String) (q : List PluginOutput) :
    applyOffset (some (.str s)) q = .ok q := by
  by_cases hs : s = "" <;> simp [applyOffset, truthy, hs]

theorem applyLimit_str (s : String) (q : List PluginOutput) :
    applyLimit (some (.str s)) q = .ok q := by
  by_cases hs : s = "" <;> simp [applyLimit, truthy, hs]

theorem applyOffset_list {x : String} {n : Int} (xs : List String)
    (q : List PluginOutput) (h : pyInt? x = some n) :
    applyOffset (some (.list (x :: xs))) q = .ok (q.drop n.toNat) := by
  simp [applyOffset, truthy, h]

theorem applyLimit_list {x : String} {n : Int} (xs : List String)
    (q : List PluginOutput) (h : pyInt? x = some n) :
    applyLimit (some (.list (x :: xs))) q = .ok (q.take n.toNat) := by
  simp [applyLimit, truthy, h]

theorem except_bind_ok {α β ε : Type} (a : α) (f : α → Except ε β) :
    Except.bind (Except.ok a) f = f a := rfl

theorem except_bind_error {α β ε : Type} (e : ε) (f : α → Except ε β) :
    Except.bind (Except.error e) f = Except.error e := rfl

/-- A successful base query (read mode) contains a record exactly when the
record is in the table and satisfies the conjunction of the per-field
predicates. -/
theorem base_query_ok_mem {fd : FilterData} {target_id : Int}
    {db l : List PluginOutput} (h : poutput_base_query fd target_id false db = .ok l)
    (r : PluginOutput) : r ∈ l ↔ r ∈ db ∧ recordMatches fd target_id r = true := by
  unfold poutput_base_query at h
  cases h6 : applyIntFilter fd.user_rank (fun r => r.user_rank)
      (strFilterChain fd target_id db) with
  | error e => rw [h6, except_bind_error] at h; cases h
  | ok q6 =>
    rw [h6, except_bind_ok] at h
    cases h7 : applyIntFilter fd.owtf_rank (fun r => r.owtf_rank) q6 with
    | error e => rw [h7, except_bind_error] at h; cases h
    | ok q7 =>
      rw [h7, except_bind_ok] at h
      simp only [Bool.false_eq_true, if_false, Except.ok.injEq] at h
      subst h
      rw [List.mem_mergeSort]
      rw [applyIntFilter_ok_mem h7 r, applyIntFilter_ok_mem h6 r]
      unfold strFilterChain
      rw [mem_applyStrFilter, mem_applyStrFilter, mem_applyStrFilter,
        mem_applyStrFilter, mem_applyStrFilter, List.mem_filter]
      simp only [recordMatches, Bool.and_eq_true]
      tauto

/-- A successful full query without pagination fields returns exactly the
base-query rows. -/
theorem gen_query_no_pagination {fd : FilterData} {target_id : Int}
    {for_delete : Bool} {db : List PluginOutput}
    (ho : fd.offset = none) (hl : fd.limit = none) :
    poutput_gen_query fd target_id for_delete db =
      poutput_base_query fd target_id for_delete db := by
  unfold poutput_gen_query
  simp only [ho, hl]
  cases hb : poutput_base_query fd target_id for_delete db with
  | error e => rw [except_bind_error]
  | ok q2 => rw [except_bind_ok, applyOffset_none, except_bind_ok, applyLimit_none]

/-- A read-mode base query result is the merge sort of some list (used for
the ordering facts). -/
theorem base_query_ok_shape {fd : FilterData} {target_id : Int}
    {db l : List PluginOutput} (h : poutput_base_query fd target_id false db = .ok l) :
    ∃ q : List PluginOutput, l = q.mergeSort keyLe := by
  unfold poutput_base_query at h
  cases h6 : applyIntFilter fd.user_rank (fun r => r.user_rank)
      (strFilterChain fd target_id db) with
  | error e => rw [h6, except_bind_error] at h; cases h
  | ok q6 =>
    rw [h6, except_bind_ok] at h
    cases h7 : applyIntFilter fd.owtf_rank (fun r => r.owtf_rank) q6 with
    | error e => rw [h7, except_bind_error] at h; cases h
    | ok q7 =>
      rw [h7, except_bind_ok] at h
      simp only [Bool.false_eq_true, if_false, Except.ok.injEq] at h
      exact ⟨q7, h.symm⟩

/-- One rank block raises the typed error when its truthy value holds a
string that does not parse as an integer. -/
theorem applyIntFilter_bad (fv : Option FilterVal) (get : PluginOutput → Int)
    (q : List PluginOutput)
    (hcase :
      (∃ s, fv = some (.str s) ∧ s ≠ "" ∧ pyInt? s = none) ∨
      (∃ xs x, fv = some (.list xs) ∧ x ∈ xs ∧ pyInt? x = none)) :
    applyIntFilter fv get q = .error ⟨"Integer has to be provided for integer fields"⟩ := by
  rcases hcase with ⟨s, hfv, hs, hp⟩ | ⟨xs, x, hfv, hx, hp⟩
  · subst hfv
    simp [applyIntFilter, truthy, hs, hp]
  · subst hfv
    have hxs : xs ≠ [] := by rintro rfl; cases hx
    simp [applyIntFilter, truthy, hxs, pyInts?_none hx hp]

/-- The only error a rank block ever raises is the typed invalid-parameter
error. -/
theorem applyIntFilter_error_msg {fv : Option FilterVal} {get : PluginOutput → Int}
    {q : List PluginOutput} {e : InvalidParameterType}
    (h : applyIntFilter fv get q = .error e) :
    e = ⟨"Integer has to be provided for integer fields"⟩ := by
  unfold applyIntFilter at h
  split at h
  · split at h
    · split at h
      · cases h
      · injection h with h2; exact h2.symm
    · split at h
      · cases h
      · injection h with h2; exact h2.symm
    · cases h
  · cases h

/-- The base query raises the typed invalid-parameter error whenever one of
the two rank fields holds a truthy value containing a string that does not
parse as an integer. -/
theorem base_query_error {fd : FilterData} (target_id : Int)
    (for_delete : Bool) (db : List PluginOutput)
    (hbad :
      ((∃ s, fd.user_rank = some (.str s) ∧ s ≠ "" ∧ pyInt? s = none) ∨
       (∃ xs x, fd.user_rank = some (.list xs) ∧ x ∈ xs ∧ pyInt? x = none)) ∨
      ((∃ s, fd.owtf_rank = some (.str s) ∧ s ≠ "" ∧ pyInt? s = none) ∨
       (∃ xs x, fd.owtf_rank = some (.list xs) ∧ x ∈ xs ∧ pyInt? x = none))) :
    poutput_base_query fd target_id for_delete db =
      .error ⟨"Integer has to be provided for integer fields"⟩ := by
  unfold poutput_base_query
  rcases hbad with h | h
  · rw [applyIntFilter_bad _ _ _ h, except_bind_error]
  · cases h6 : applyIntFilter fd.user_rank (fun r => r.user_rank)
        (strFilterChain fd target_id db) with
    | error e => rw [except_bind_error, applyIntFilter_error_msg h6]
    | ok q6 => rw [except_bind_ok, applyIntFilter_bad _ _ q6 h, except_bind_error]

/-- Any record of the merged table carrying the merged record's natural key
is the merged record itself. -/
theorem db_merge_mem_key {db : List PluginOutput} {rec r : PluginOutput}
    (hr : r ∈ db_merge db rec) (hk : natKeyEq rec r = true) : r = rec := by
  unfold db_merge at hr
  by_cases hany : db.any (fun x => natKeyEq rec x) = true
  · rw [if_pos hany] at hr
    rcases List.mem_map.mp hr with ⟨x, _, hfx⟩
    by_cases hkx : natKeyEq rec x = true
    · rw [if_pos hkx] at hfx
      exact hfx.symm
    · rw [if_neg hkx] at hfx
      subst hfx
      exact absurd hk hkx
  · rw [if_neg hany] at hr
    rcases List.mem_append.mp hr with hmem | hmem
    · exfalso
      exact hany (List.any_eq_true.mpr ⟨r, hmem, hk⟩)
    · rcases List.mem_singleton.mp hmem with rfl
      rfl

/-- Merging leaves exactly one record with the merged record's natural key,
provided the table held at most one before. -/
theorem db_merge_countP_key {db : List PluginOutput} {rec : PluginOutput}
    (h1 : db.countP (fun r => natKeyEq rec r) ≤ 1) :
    (db_merge db rec).countP (fun r => natKeyEq rec r) = 1 := by
  unfold db_merge
  by_cases hany : db.any (fun x => natKeyEq rec x) = true
  · rw [if_pos hany]
    rw [List.countP_map]
    have hpt : ∀ x ∈ db,
        ((fun r => natKeyEq rec r) ∘ fun r => if natKeyEq rec r = true then rec else r) x = true ↔
          (fun r => natKeyEq rec r) x = true := by
      intro x _
      by_cases hkx : natKeyEq rec x = true
      · simp [hkx, natKeyEq_refl]
      · simp [hkx]
    rw [List.countP_congr hpt]
    rcases List.any_eq_true.mp hany with ⟨x, hx, hkx⟩
    have hpos : 0 < db.countP (fun r => natKeyEq rec r) :=
      List.countP_pos_iff.mpr ⟨x, hx, hkx⟩
    omega
  · rw [if_neg hany]
    rw [List.countP_append]
    have hz : db.countP (fun r => natKeyEq rec r) = 0 := by
      rw [List.countP_eq_zero]
      intro a ha hka
      exact hany (List.any_eq_true.mpr ⟨a, ha, hka⟩)
    simp [hz, natKeyEq_refl]

/-- The merged record is always present after merging. -/
theorem db_merge_self_mem (db : List PluginOutput) (rec : PluginOutput) :
    rec ∈ db_merge db rec := by
  unfold db_merge
  by_cases hany : db.any (fun x => natKeyEq rec x) = true
  · rw [if_pos hany]
    rcases List.any_eq_true.mp hany with ⟨x, hx, hkx⟩
    exact List.mem_map.mpr ⟨x, hx, by rw [if_pos hkx]⟩
  · rw [if_neg hany]
    exact List.mem_append.mpr (Or.inr (List.mem_singleton.mpr rfl))

/-- The full generated query raises whenever the base query raises. -/
theorem gen_query_error {fd : FilterData} {target_id : Int}
    {for_delete : Bool} {db : List PluginOutput} {e : InvalidParameterType}
    (h : poutput_base_query fd target_id for_delete db = .error e) :
    poutput_gen_query fd target_id for_delete db = .error e := by
  unfold poutput_gen_query
  rw [h, except_bind_error]

/-- The query generated for an empty filter in delete mode is exactly the
target's rows, in table order. -/
theorem gen_query_empty_delete (target_id : Int) (db : List PluginOutput) :
    poutput_gen_query emptyFilter target_id true db =
      .ok (db.filter (fun r => r.target_id == target_id)) := rfl

/-- A tree removal never leaves the removed root in the filesystem. -/
theorem rm_tree_not_mem (p : String) (fs : List String) : p ∉ rm_tree p fs := by
  intro hmem
  have := (List.mem_filter.mp hmem).2
  simp at this

/-- One artifact-deletion step only ever removes filesystem entries. -/
theorem deleteArtifactStep_fs_subset (cfg : Config)
    (st : List String × List DelEvent) (plugin : PluginOutput) {x : String}
    (hx : x ∈ (deleteArtifactStep cfg st plugin).1) : x ∈ st.1 := by
  unfold deleteArtifactStep at hx
  cases hp : plugin.output_path with
  | none => rw [hp] at hx; exact hx
  | some p =>
    rw [hp] at hx
    simp only [] at hx
    by_cases hps : p ≠ ""
    · rw [if_pos hps] at hx
      by_cases hex : os_path_exists (os_path_join cfg.output_dir_target p) st.1 = true
      · rw [if_pos hex] at hx
        exact (List.mem_filter.mp hx).1
      · rw [if_neg hex] at hx
        exact hx
    · rw [if_neg hps] at hx
      exact hx

/-- The artifact-deletion fold only ever removes filesystem entries. -/
theorem deleteArtifact_fold_fs_subset (cfg : Config) :
    ∀ (l : List PluginOutput) (st : List String × List DelEvent) (x : String),
      x ∈ (l.foldl (deleteArtifactStep cfg) st).1 → x ∈ st.1 := by
  intro l
  induction l with
  | nil => intro st x hx; exact hx
  | cons r rs ih =>
    intro st x hx
    exact deleteArtifactStep_fs_subset cfg st r (ih (deleteArtifactStep cfg st r) x hx)

/-- After one artifact-deletion step for a record with a truthy path, the
joined artifact directory is gone from the filesystem. -/
theorem deleteArtifactStep_removes (cfg : Config)
    (st : List String × List DelEvent) {plugin : PluginOutput} {p : String}
    (hp : plugin.output_path = some p) (hps : p ≠ "") :
    os_path_join cfg.output_dir_target p ∉ (deleteArtifactStep cfg st plugin).1 := by
  unfold deleteArtifactStep
  rw [hp]
  simp only []
  rw [if_pos hps]
  by_cases hex : os_path_exists (os_path_join cfg.output_dir_target p) st.1 = true
  · rw [if_pos hex]
    exact rm_tree_not_mem _ _
  · rw [if_neg hex]
    intro hmem
    exact hex (by simpa [os_path_exists] using hmem)

/-- After the artifact-deletion fold, the artifact directory of every folded
record with a truthy path is gone from the filesystem. -/
theorem deleteArtifact_fold_removes (cfg : Config) :
    ∀ (l : List PluginOutput) (st : List String × List DelEvent)
      (r : PluginOutput) (p : String), r ∈ l → r.output_path = some p → p ≠ "" →
      os_path_join cfg.output_dir_target p ∉ (l.foldl (deleteArtifactStep cfg) st).1 := by
  intro l
  induction l with
  | nil => intro st r p hr; cases hr
  | cons a rs ih =>
    intro st r p hr hp hps
    rcases List.mem_cons.mp hr with rfl | hr2
    · intro hmem
      exact deleteArtifactStep_removes cfg st hp hps
        (deleteArtifact_fold_fs_subset cfg rs (deleteArtifactStep cfg st r) _ hmem)
    · exact ih (deleteArtifactStep cfg st a) r p hr2 hp hps

/-- The artifact-deletion fold only appends tree-removal events. -/
theorem deleteArtifact_fold_events (cfg : Config) :
    ∀ (l : List PluginOutput) (st : List String × List DelEvent),
      (∀ e ∈ st.2, ∃ p, e = DelEvent.rmTree p) →
      ∀ e ∈ (l.foldl (deleteArtifactStep cfg) st).2, ∃ p, e = DelEvent.rmTree p := by
  intro l
  induction l with
  | nil => intro st hst e he; exact hst e he
  | cons a rs ih =>
    intro st hst e he
    refine ih (deleteArtifactStep cfg st a) ?_ e he
    intro e2 he2
    unfold deleteArtifactStep at he2
    cases hp : a.output_path with
    | none => rw [hp] at he2; exact hst e2 he2
    | some p =>
      rw [hp] at he2
      simp only [] at he2
      by_cases hps : p ≠ ""
      · rw [if_pos hps] at he2
        by_cases hex : os_path_exists (os_path_join cfg.output_dir_target p) st.1 = true
        · rw [if_pos hex] at he2
          rcases List.mem_append.mp he2 with h2 | h2
          · exact hst e2 h2
          · rcases List.mem_singleton.mp h2 with rfl
            exact ⟨_, rfl⟩
        · rw [if_neg hex] at he2
          exact hst e2 he2
      · rw [if_neg hps] at he2
        exact hst e2 he2

/-- A Python bucket increment at a non-negative in-range index updates that
bucket in place. -/
theorem bucketIncrement_pos {l : List SeverityBucket} {i : Int} (h0 : 0 ≤ i)
    (hlt : i.toNat < l.length) :
    bucketIncrement l i =
      some (l.set i.toNat { l[i.toNat] with value := l[i.toNat].value + 1 }) := by
  unfold bucketIncrement
  simp only []
  have h1 : ¬(i < 0) := by omega
  simp only [if_neg h1]
  rw [List.getElem?_eq_getElem hlt]

/-- `-1` never equals a natural-number bucket index. -/
theorem neg_one_beq_ofNat (j : Nat) : ((-1 : Int) == (j : Int)) = false := by
  simp only [beq_eq_false_iff_ne, ne_eq]
  omega

/-- A Python bucket increment at an index at or beyond the list length is an
`IndexError`. -/
theorem bucketIncrement_none_high {l : List SeverityBucket} {i : Int}
    (h : (l.length : Int) ≤ i) : bucketIncrement l i = none := by
  unfold bucketIncrement
  simp only []
  have h0 : ¬(i < 0) := by omega
  simp only [if_neg h0]
  rw [List.getElem?_eq_none (by omega : l.length ≤ i.toNat)]

/-- A Python bucket increment at a negative index below the wrap-around range
is an `IndexError`. -/
theorem bucketIncrement_none_low {l : List SeverityBucket} {i : Int}
    (h : i + (l.length : Int) < 0) : bucketIncrement l i = none := by
  unfold bucketIncrement
  simp only []
  have h0 : i < 0 := by omega
  simp only [if_pos h0]
  rw [if_pos h]

/-- A Python bucket increment at an in-range negative index updates the
bucket counted from the end of the list. -/
theorem bucketIncrement_neg {l : List SeverityBucket} {i : Int} (h0 : i < 0)
    (hge : 0 ≤ i + (l.length : Int))
    (hlt : (i + (l.length : Int)).toNat < l.length) :
    bucketIncrement l i =
      some (l.set (i + (l.length : Int)).toNat
        { l[(i + (l.length : Int)).toNat] with
          value := l[(i + (l.length : Int)).toNat].value + 1 }) := by
  unfold bucketIncrement
  simp only []
  simp only [if_pos h0]
  rw [if_neg (by omega : ¬(i + (l.length : Int) < 0))]
  rw [List.getElem?_eq_getElem hlt]

/-- A successful bucket increment preserves the number of buckets. -/
theorem bucketIncrement_length {l out : List SeverityBucket} {i : Int}
    (h : bucketIncrement l i = some out) : out.length = l.length := by
  by_cases hhi : (l.length : Int) ≤ i
  · rw [bucketIncrement_none_high hhi] at h
    cases h
  · by_cases hlo : i + (l.length : Int) < 0
    · rw [bucketIncrement_none_low hlo] at h
      cases h
    · by_cases h0 : 0 ≤ i
      · have hlt : i.toNat < l.length := by omega
        rw [bucketIncrement_pos h0 hlt] at h
        injection h with h2
        rw [← h2, List.length_set]
      · have h1 : i < 0 := by omega
        have hge : 0 ≤ i + (l.length : Int) := by omega
        have hlt : (i + (l.length : Int)).toNat < l.length := by omega
        rw [bucketIncrement_neg h1 hge hlt] at h
        injection h with h2
        rw [← h2, List.length_set]

/-- A successful severity step preserves the number of buckets. -/
theorem severityStep_length {tids : List Int} {freq freq2 : List SeverityBucket}
    {r : PluginOutput} (h : severityStep tids freq r = some freq2) :
    freq2.length = freq.length := by
  unfold severityStep at h
  split at h
  · split at h
    · exact bucketIncrement_length h
    · split at h
      · exact bucketIncrement_length h
      · cases h; rfl
  · cases h; rfl

/-- The severity fold fails outright as soon as the table contains an
in-session record whose effective rank lies at or beyond the bucket count, or
below even the wrap-around range. -/
theorem severity_fold_fails (tids : List Int) :
    ∀ (rs : List PluginOutput) (freq : List SeverityBucket),
      freq.length = 6 →
      ∀ r ∈ rs, tids.contains r.target_id = true →
        (6 ≤ effRank r ∨ effRank r ≤ -7) →
        rs.foldlM (severityStep tids) freq = none := by
  intro rs
  induction rs with
  | nil => intro freq _ r hr; cases hr
  | cons a as ih =>
    intro freq hlen r hr hc hbad
    rw [List.foldlM_cons]
    rcases List.mem_cons.mp hr with rfl | htail
    · have hstep : severityStep tids freq r = none := by
        unfold severityStep
        rw [if_pos hc]
        by_cases hur : r.user_rank ≠ -1
        · rw [if_pos hur]
          have heff : effRank r = r.user_rank := by
            unfold effRank
            rw [if_pos hur]
          rw [heff] at hbad
          rcases hbad with h6 | h7
          · exact bucketIncrement_none_high (by omega)
          · exact bucketIncrement_none_low (by omega)
        · rw [if_neg hur]
          push_neg at hur
          have heff : effRank r = r.owtf_rank := by
            unfold effRank
            rw [hur]
            simp
          rw [heff] at hbad
          have hone : r.owtf_rank ≠ -1 := by omega
          rw [if_pos hone]
          rcases hbad with h6 | h7
          · exact bucketIncrement_none_high (by omega)
          · exact bucketIncrement_none_low (by omega)
      rw [hstep]
      rfl
    · cases hstep : severityStep tids freq a with
      | none => rfl
      | some freq2 =>
        show as.foldlM (severityStep tids) freq2 = none
        exact ih freq2 (by rw [severityStep_length hstep, hlen]) r htail hc hbad

/-- The severity fold succeeds on rank-respecting records and adds, to every
bucket, the number of counted records whose effective rank is that bucket's
index. -/
theorem severity_fold (tids : List Int) :
    ∀ (rs : List PluginOutput) (freq : List SeverityBucket),
      freq.length = 6 →
      (∀ r ∈ rs, tids.contains r.target_id = true →
        -1 ≤ r.user_rank ∧ r.user_rank ≤ 5 ∧ -1 ≤ r.owtf_rank ∧ r.owtf_rank ≤ 5) →
      ∃ out, rs.foldlM (severityStep tids) freq = some out ∧ out.length = 6 ∧
        ∀ (j : Nat) (hj1 : j < out.length) (hj2 : j < freq.length),
          out[j] = { freq[j] with
            value := freq[j].value + (severityCount tids rs j : Int) } := by
  intro rs
  induction rs with
  | nil =>
    intro freq hlen _
    refine ⟨freq, rfl, hlen, ?_⟩
    intro j hj1 hj2
    simp [severityCount]
  | cons r rs ih =>
    intro freq hlen hr
    have hrtail : ∀ x ∈ rs, tids.contains x.target_id = true →
        -1 ≤ x.user_rank ∧ x.user_rank ≤ 5 ∧ -1 ≤ x.owtf_rank ∧ x.owtf_rank ≤ 5 := by
      intro x hx
      exact hr x (List.mem_cons_of_mem r hx)
    rw [List.foldlM_cons]
    by_cases hmem : tids.contains r.target_id = true
    · have hranks := hr r (List.mem_cons_self r rs) hmem
      by_cases hur : r.user_rank ≠ -1
      · -- counted via user_rank
        have h0 : 0 ≤ r.user_rank := by omega
        have hlt : r.user_rank.toNat < freq.length := by omega
        have hstep : severityStep tids freq r =
            some (freq.set r.user_rank.toNat
              { freq[r.user_rank.toNat] with
                value := freq[r.user_rank.toNat].value + 1 }) := by
          unfold severityStep
          rw [if_pos hmem, if_pos hur]
          exact bucketIncrement_pos h0 hlt
        rw [hstep]
        have hlen2 : (freq.set r.user_rank.toNat
            { freq[r.user_rank.toNat] with
              value := freq[r.user_rank.toNat].value + 1 }).length = 6 := by
          rw [List.length_set]; exact hlen
        rcases ih _ hlen2 hrtail with ⟨out, hfold, houtlen, hout⟩
        refine ⟨out, by simpa using hfold, houtlen, ?_⟩
        intro j hj1 hj2
        have hj2b : j < (freq.set r.user_rank.toNat
            { freq[r.user_rank.toNat] with
              value := freq[r.user_rank.toNat].value + 1 }).length := by
          rw [List.length_set]; exact hj2
        rw [hout j hj1 hj2b]
        rw [List.getElem_set]
        have hcnt : severityCount tids (r :: rs) j =
            severityCount tids rs j +
              (if tids.contains r.target_id && (effRank r == (j : Int)) then 1 else 0) := by
          unfold severityCount
          rw [List.countP_cons]
        have heff : effRank r = r.user_rank := by
          unfold effRank
          rw [if_pos hur]
        by_cases hje : r.user_rank.toNat = j
        · have hja : r.user_rank = (j : Int) := by omega
          rw [if_pos hje, hcnt, heff, hmem]
          have : (r.user_rank == (j : Int)) = true := by
            rw [hja]; exact beq_self_eq_true _
          rw [this]
          simp only [Bool.true_and, if_true]
          subst hje
          congr 1
          push_cast
          omega
        · have hja : ¬(r.user_rank = (j : Int)) := by omega
          rw [if_neg hje, hcnt, heff, hmem]
          have : (r.user_rank == (j : Int)) = false := by
            simpa [beq_eq_false_iff_ne] using hja
          rw [this]
          simp
      · -- user rank unset
        push_neg at hur
        by_cases hor : r.owtf_rank ≠ -1
        · have h0 : 0 ≤ r.owtf_rank := by omega
          have hlt : r.owtf_rank.toNat < freq.length := by omega
          have hstep : severityStep tids freq r =
              some (freq.set r.owtf_rank.toNat
                { freq[r.owtf_rank.toNat] with
                  value := freq[r.owtf_rank.toNat].value + 1 }) := by
            unfold severityStep
            rw [if_pos hmem, if_neg (by simpa using hur), if_pos hor]
            exact bucketIncrement_pos h0 hlt
          rw [hstep]
          have hlen2 : (freq.set r.owtf_rank.toNat
              { freq[r.owtf_rank.toNat] with
                value := freq[r.owtf_rank.toNat].value + 1 }).length = 6 := by
            rw [List.length_set]; exact hlen
          rcases ih _ hlen2 hrtail with ⟨out, hfold, houtlen, hout⟩
          refine ⟨out, by simpa using hfold, houtlen, ?_⟩
          intro j hj1 hj2
          have hj2b : j < (freq.set r.owtf_rank.toNat
              { freq[r.owtf_rank.toNat] with
                value := freq[r.owtf_rank.toNat].value + 1 }).length := by
            rw [List.length_set]; exact hj2
          rw [hout j hj1 hj2b]
          rw [List.getElem_set]
          have hcnt : severityCount tids (r :: rs) j =
              severityCount tids rs j +
                (if tids.contains r.target_id && (effRank r == (j : Int)) then 1 else 0) := by
            unfold severityCount
            rw [List.countP_cons]
          have heff : effRank r = r.owtf_rank := by
            unfold effRank
            rw [if_neg (by simpa using hur)]
          by_cases hje : r.owtf_rank.toNat = j
          · have hja : r.owtf_rank = (j : Int) := by omega
            rw [if_pos hje, hcnt, heff, hmem]
            have : (r.owtf_rank == (j : Int)) = true := by
              rw [hja]; exact beq_self_eq_true _
            rw [this]
            simp only [Bool.true_and, if_true]
            subst hje
            congr 1
            push_cast
            omega
          · have hja : ¬(r.owtf_rank = (j : Int)) := by omega
            rw [if_neg hje, hcnt, heff, hmem]
            have : (r.owtf_rank == (j : Int)) = false := by
              simpa [beq_eq_false_iff_ne] using hja
            rw [this]
            simp
        · -- both ranks unset: the record is excluded
          push_neg at hor
          have hstep : severityStep tids freq r = some freq := by
            unfold severityStep
            rw [if_pos hmem, if_neg (by simpa using hur), if_neg (by simpa using hor)]
          rw [hstep]
          rcases ih freq hlen hrtail with ⟨out, hfold, houtlen, hout⟩
          refine ⟨out, by simpa using hfold, houtlen, ?_⟩
          intro j hj1 hj2
          rw [hout j hj1 hj2]
          have hcnt : severityCount tids (r :: rs) j = severityCount tids rs j := by
            unfold severityCount
            rw [List.countP_cons]
            have heff : effRank r = -1 := by
              unfold effRank
              rw [hur, hor]
              simp
            rw [heff, neg_one_beq_ofNat]
            simp
          rw [hcnt]
    · -- record of a target outside the session
      have hstep : severityStep tids freq r = some freq := by
        unfold severityStep
        rw [if_neg hmem]
      rw [hstep]
      rcases ih freq hlen hrtail with ⟨out, hfold, houtlen, hout⟩
      refine ⟨out, by simpa using hfold, houtlen, ?_⟩
      intro j hj1 hj2
      rw [hout j hj1 hj2]
      have hcnt : severityCount tids (r :: rs) j = severityCount tids rs j := by
        unfold severityCount
        rw [List.countP_cons]
        have : tids.contains r.target_id = false := by
          simpa using hmem
        rw [this]
        simp
      rw [hcnt]

/-- The severity fold succeeds on records whose effective ranks stay in
Python's valid index range `[-6, 5]` for the six-bucket list, and adds to
every bucket the number of counted records whose wrapped index is that
bucket's position. -/
theorem severity_fold_wrap (tids : List Int) :
    ∀ (rs : List PluginOutput) (freq : List SeverityBucket),
      freq.length = 6 →
      (∀ r ∈ rs, tids.contains r.target_id = true →
        -6 ≤ effRank r ∧ effRank r ≤ 5) →
      ∃ out, rs.foldlM (severityStep tids) freq = some out ∧ out.length = 6 ∧
        ∀ (j : Nat) (hj1 : j < out.length) (hj2 : j < freq.length),
          out[j] = { freq[j] with
            value := freq[j].value + (severityCountWrap tids rs j : Int) } := by
  intro rs
  induction rs with
  | nil =>
    intro freq hlen _
    refine ⟨freq, rfl, hlen, ?_⟩
    intro j hj1 hj2
    simp [severityCountWrap]
  | cons r rs ih =>
    intro freq hlen hr
    have hrtail : ∀ x ∈ rs, tids.contains x.target_id = true →
        -6 ≤ effRank x ∧ effRank x ≤ 5 := by
      intro x hx
      exact hr x (List.mem_cons_of_mem r hx)
    have hcnt : ∀ j : Nat, severityCountWrap tids (r :: rs) j =
        severityCountWrap tids rs j +
          (if tids.contains r.target_id && !(effRank r == -1) &&
              (pyBucketIdx (effRank r) == (j : Int)) then 1 else 0) := by
      intro j
      unfold severityCountWrap
      rw [List.countP_cons]
    rw [List.foldlM_cons]
    by_cases hmem : tids.contains r.target_id = true
    · have hranks := hr r (List.mem_cons_self r rs) hmem
      by_cases hur : r.user_rank ≠ -1
      · have heff : effRank r = r.user_rank := by
          unfold effRank
          rw [if_pos hur]
        rw [heff] at hranks
        by_cases hpos : 0 ≤ r.user_rank
        · -- non-negative in-range rank: plain indexing
          have hlt : r.user_rank.toNat < freq.length := by omega
          have hstep : severityStep tids freq r =
              some (freq.set r.user_rank.toNat
                { freq[r.user_rank.toNat] with
                  value := freq[r.user_rank.toNat].value + 1 }) := by
            unfold severityStep
            rw [if_pos hmem, if_pos hur]
            exact bucketIncrement_pos hpos hlt
          rw [hstep]
          have hlen2 : (freq.set r.user_rank.toNat
              { freq[r.user_rank.toNat] with
                value := freq[r.user_rank.toNat].value + 1 }).length = 6 := by
            rw [List.length_set]
            exact hlen
          rcases ih _ hlen2 hrtail with ⟨out, hfold, houtlen, hout⟩
          refine ⟨out, by simpa using hfold, houtlen, ?_⟩
          intro j hj1 hj2
          have hj2b : j < (freq.set r.user_rank.toNat
              { freq[r.user_rank.toNat] with
                value := freq[r.user_rank.toNat].value + 1 }).length := by
            rw [List.length_set]
            exact hj2
          rw [hout j hj1 hj2b]
          rw [List.getElem_set]
          have hne : (!(r.user_rank == (-1 : Int))) = true := by
            simp only [Bool.not_eq_true', beq_eq_false_iff_ne, ne_eq]
            omega
          have hidx : pyBucketIdx r.user_rank = r.user_rank := by
            unfold pyBucketIdx
            rw [if_neg (by omega)]
          by_cases hje : r.user_rank.toNat = j
          · have hja : r.user_rank = (j : Int) := by omega
            rw [if_pos hje, hcnt, heff, hmem, hidx, hne]
            have heq : (r.user_rank == (j : Int)) = true := by
              rw [hja]
              exact beq_self_eq_true _
            rw [heq]
            simp only [Bool.true_and, Bool.and_true, if_true]
            subst hje
            congr 1
            push_cast
            omega
          · have hja : ¬(r.user_rank = (j : Int)) := by omega
            rw [if_neg hje, hcnt, heff, hmem, hidx, hne]
            have heq : (r.user_rank == (j : Int)) = false := by
              simpa [beq_eq_false_iff_ne] using hja
            rw [heq]
            simp
        · -- negative in-range rank: wrap-around indexing
          push_neg at hpos
          have h2 : r.user_rank ≤ -2 := by omega
          have hge : 0 ≤ r.user_rank + (freq.length : Int) := by omega
          have hlt : (r.user_rank + (freq.length : Int)).toNat < freq.length := by
            omega
          have hstep : severityStep tids freq r =
              some (freq.set (r.user_rank + (freq.length : Int)).toNat
                { freq[(r.user_rank + (freq.length : Int)).toNat] with
                  value := freq[(r.user_rank + (freq.length : Int)).toNat].value + 1 }) := by
            unfold severityStep
            rw [if_pos hmem, if_pos hur]
            exact bucketIncrement_neg hpos hge hlt
          rw [hstep]
          have hlen2 : (freq.set (r.user_rank + (freq.length : Int)).toNat
              { freq[(r.user_rank + (freq.length : Int)).toNat] with
                value := freq[(r.user_rank + (freq.length : Int)).toNat].value + 1 }).length = 6 := by
            rw [List.length_set]
            exact hlen
          rcases ih _ hlen2 hrtail with ⟨out, hfold, houtlen, hout⟩
          refine ⟨out, by simpa using hfold, houtlen, ?_⟩
          intro j hj1 hj2
          have hj2b : j < (freq.set (r.user_rank + (freq.length : Int)).toNat
              { freq[(r.user_rank + (freq.length : Int)).toNat] with
                value := freq[(r.user_rank + (freq.length : Int)).toNat].value + 1 }).length := by
            rw [List.length_set]
            exact hj2
          rw [hout j hj1 hj2b]
          rw [List.getElem_set]
          have hne : (!(r.user_rank == (-1 : Int))) = true := by
            simp only [Bool.not_eq_true', beq_eq_false_iff_ne, ne_eq]
            omega
          have hidx : pyBucketIdx r.user_rank = r.user_rank + 6 := by
            unfold pyBucketIdx
            rw [if_pos hpos]
          by_cases hje : (r.user_rank + (freq.length : Int)).toNat = j
          · have hja : r.user_rank + 6 = (j : Int) := by omega
            rw [if_pos hje, hcnt, heff, hmem, hidx, hne]
            have heq : (r.user_rank + 6 == (j : Int)) = true := by
              rw [hja]
              exact beq_self_eq_true _
            rw [heq]
            simp only [Bool.true_and, Bool.and_true, if_true]
            subst hje
            congr 1
            push_cast
            omega
          · have hja : ¬(r.user_rank + 6 = (j : Int)) := by omega
            rw [if_neg hje, hcnt, heff, hmem, hidx, hne]
            have heq : (r.user_rank + 6 == (j : Int)) = false := by
              simpa [beq_eq_false_iff_ne] using hja
            rw [heq]
            simp
      · -- user rank unset: dispatch on owtf_rank
        push_neg at hur
        have heff : effRank r = r.owtf_rank := by
          unfold effRank
          rw [hur]
          simp
        rw [heff] at hranks
        by_cases hor : r.owtf_rank ≠ -1
        · by_cases hpos : 0 ≤ r.owtf_rank
          · have hlt : r.owtf_rank.toNat < freq.length := by omega
            have hstep : severityStep tids freq r =
                some (freq.set r.owtf_rank.toNat
                  { freq[r.owtf_rank.toNat] with
                    value := freq[r.owtf_rank.toNat].value + 1 }) := by
              unfold severityStep
              rw [if_pos hmem, if_neg (by simpa using hur), if_pos hor]
              exact bucketIncrement_pos hpos hlt
            rw [hstep]
            have hlen2 : (freq.set r.owtf_rank.toNat
                { freq[r.owtf_rank.toNat] with
                  value := freq[r.owtf_rank.toNat].value + 1 }).length = 6 := by
              rw [List.length_set]
              exact hlen
            rcases ih _ hlen2 hrtail with ⟨out, hfold, houtlen, hout⟩
            refine ⟨out, by simpa using hfold, houtlen, ?_⟩
            intro j hj1 hj2
            have hj2b : j < (freq.set r.owtf_rank.toNat
                { freq[r.owtf_rank.toNat] with
                  value := freq[r.owtf_rank.toNat].value + 1 }).length := by
              rw [List.length_set]
              exact hj2
            rw [hout j hj1 hj2b]
            rw [List.getElem_set]
            have hne : (!(r.owtf_rank == (-1 : Int))) = true := by
              simp only [Bool.not_eq_true', beq_eq_false_iff_ne, ne_eq]
              omega
            have hidx : pyBucketIdx r.owtf_rank = r.owtf_rank := by
              unfold pyBucketIdx
              rw [if_neg (by omega)]
            by_cases hje : r.owtf_rank.toNat = j
            · have hja : r.owtf_rank = (j : Int) := by omega
              rw [if_pos hje, hcnt, heff, hmem, hidx, hne]
              have heq : (r.owtf_rank == (j : Int)) = true := by
                rw [hja]
                exact beq_self_eq_true _
              rw [heq]
              simp only [Bool.true_and, Bool.and_true, if_true]
              subst hje
              congr 1
              push_cast
              omega
            · have hja : ¬(r.owtf_rank = (j : Int)) := by omega
              rw [if_neg hje, hcnt, heff, hmem, hidx, hne]
              have heq : (r.owtf_rank == (j : Int)) = false := by
                simpa [beq_eq_false_iff_ne] using hja
              rw [heq]
              simp
          · push_neg at hpos
            have h2 : r.owtf_rank ≤ -2 := by omega
            have hge : 0 ≤ r.owtf_rank + (freq.length : Int) := by omega
            have hlt : (r.owtf_rank + (freq.length : Int)).toNat < freq.length := by
              omega
            have hstep : severityStep tids freq r =
                some (freq.set (r.owtf_rank + (freq.length : Int)).toNat
                  { freq[(r.owtf_rank + (freq.length : Int)).toNat] with
                    value := freq[(r.owtf_rank + (freq.length : Int)).toNat].value + 1 }) := by
              unfold severityStep
              rw [if_pos hmem, if_neg (by simpa using hur), if_pos hor]
              exact bucketIncrement_neg hpos hge hlt
            rw [hstep]
            have hlen2 : (freq.set (r.owtf_rank + (freq.length : Int)).toNat
                { freq[(r.owtf_rank + (freq.length : Int)).toNat] with
                  value := freq[(r.owtf_rank + (freq.length : Int)).toNat].value + 1 }).length = 6 := by
              rw [List.length_set]
              exact hlen
            rcases ih _ hlen2 hrtail with ⟨out, hfold, houtlen, hout⟩
            refine ⟨out, by simpa using hfold, houtlen, ?_⟩
            intro j hj1 hj2
            have hj2b : j < (freq.set (r.owtf_rank + (freq.length : Int)).toNat
                { freq[(r.owtf_rank + (freq.length : Int)).toNat] with
                  value := freq[(r.owtf_rank + (freq.length : Int)).toNat].value + 1 }).length := by
              rw [List.length_set]
              exact hj2
            rw [hout j hj1 hj2b]
            rw [List.getElem_set]
            have hne : (!(r.owtf_rank == (-1 : Int))) = true := by
              simp only [Bool.not_eq_true', beq_eq_false_iff_ne, ne_eq]
              omega
            have hidx : pyBucketIdx r.owtf_rank = r.owtf_rank + 6 := by
              unfold pyBucketIdx
              rw [if_pos hpos]
            by_cases hje : (r.owtf_rank + (freq.length : Int)).toNat = j
            · have hja : r.owtf_rank + 6 = (j : Int) := by omega
              rw [if_pos hje, hcnt, heff, hmem, hidx, hne]
              have heq : (r.owtf_rank + 6 == (j : Int)) = true := by
                rw [hja]
                exact beq_self_eq_true _
              rw [heq]
              simp only [Bool.true_and, Bool.and_true, if_true]
              subst hje
              congr 1
              push_cast
              omega
            · have hja : ¬(r.owtf_rank + 6 = (j : Int)) := by omega
              rw [if_neg hje, hcnt, heff, hmem, hidx, hne]
              have heq : (r.owtf_rank + 6 == (j : Int)) = false := by
                simpa [beq_eq_false_iff_ne] using hja
              rw [heq]
              simp
        · -- both ranks unset: the record is excluded
          push_neg at hor
          have hstep : severityStep tids freq r = some freq := by
            unfold severityStep
            rw [if_pos hmem, if_neg (by simpa using hur), if_neg (by simpa using hor)]
          rw [hstep]
          rcases ih freq hlen hrtail with ⟨out, hfold, houtlen, hout⟩
          refine ⟨out, by simpa using hfold, houtlen, ?_⟩
          intro j hj1 hj2
          rw [hout j hj1 hj2]
          have hz : severityCountWrap tids (r :: rs) j = severityCountWrap tids rs j := by
            rw [hcnt, heff, hor]
            simp
          rw [hz]
    · -- record of a target outside the session
      have hstep : severityStep tids freq r = some freq := by
        unfold severityStep
        rw [if_neg hmem]
      rw [hstep]
      rcases ih freq hlen hrtail with ⟨out, hfold, houtlen, hout⟩
      refine ⟨out, by simpa using hfold, houtlen, ?_⟩
      intro j hj1 hj2
      rw [hout j hj1 hj2]
      have hz : severityCountWrap tids (r :: rs) j = severityCountWrap tids rs j := by
        rw [hcnt]
        have : tids.contains r.target_id = false := by
          simpa using hmem
        rw [this]
        simp
      rw [hz]

/-- The key ordering is transitive. -/
theorem keyLe_trans (a b c : PluginOutput) (hab : keyLe a b = true)
    (hbc : keyLe b c = true) : keyLe a c = true := by
  simp only [keyLe, decide_eq_true_eq] at hab hbc ⊢
  exact le_trans hab hbc

/-- The key ordering is total. -/
theorem keyLe_total (a b : PluginOutput) : (keyLe a b || keyLe b a) = true := by
  simp only [keyLe, Bool.or_eq_true, decide_eq_true_eq]
  exact le_total a.plugin_key b.plugin_key

/-- A read-mode base query whose pre-sort pipeline result is already sorted
evaluates to that result. -/
theorem base_query_of_sorted {fd : FilterData} {target_id : Int}
    {db q6 q7 : List PluginOutput}
    (h6 : applyIntFilter fd.user_rank (fun r => r.user_rank)
      (strFilterChain fd target_id db) = .ok q6)
    (h7 : applyIntFilter fd.owtf_rank (fun r => r.owtf_rank) q6 = .ok q7)
    (hs : List.Pairwise (fun a b => keyLe a b = true) q7) :
    poutput_base_query fd target_id false db = .ok q7 := by
  unfold poutput_base_query
  rw [h6, except_bind_ok, h7, except_bind_ok,
    List.mergeSort_of_sorted hs]
  simp

/-- Each string-filter block returns a sublist of its input. -/
theorem applyStrFilter_sublist (fv : Option FilterVal)
    (get : PluginOutput → String) (q : List PluginOutput) :
    (applyStrFilter fv get q).Sublist q := by
  unfold applyStrFilter
  split
  · match fv with
    | none => exact List.Sublist.refl q
    | some (.str s) => exact List.filter_sublist q
    | some (.list xs) => exact List.filter_sublist q
  · exact List.Sublist.refl q

/-- The string-filter chain returns a sublist of the record table. -/
theorem strFilterChain_sublist (fd : FilterData) (target_id : Int)
    (db : List PluginOutput) : (strFilterChain fd target_id db).Sublist db := by
  unfold strFilterChain
  refine List.Sublist.trans (applyStrFilter_sublist _ _ _) ?_
  refine List.Sublist.trans (applyStrFilter_sublist _ _ _) ?_
  refine List.Sublist.trans (applyStrFilter_sublist _ _ _) ?_
  refine List.Sublist.trans (applyStrFilter_sublist _ _ _) ?_
  refine List.Sublist.trans (applyStrFilter_sublist _ _ _) ?_
  exact List.filter_sublist db

/-- A one-record store is key-unique. -/
theorem keyUnique_singleton (r : PluginOutput) : keyUnique [r] := by
  intro x
  cases h : natKeyEq x r <;> simp [List.countP_cons, h]

/-- The two fixture records are ordered by their keys. -/
theorem keyLe_exRec12 : keyLe exRec1 exRec2 = true := by
  unfold keyLe exRec1 exRec2
  simp only [decide_eq_true_eq]
  rw [String.le_iff_toList_le]
  decide

/-- A one-record result is trivially sorted. -/
theorem pairwise_exRec1 : List.Pairwise (fun a b => keyLe a b = true) [exRec1] := by
  simp

/-- The two-record fixture result is sorted. -/
theorem pairwise_exRec12 :
    List.Pairwise (fun a b => keyLe a b = true) [exRec1, exRec2] := by
  refine List.Pairwise.cons ?_ ?_
  · intro b hb
    rcases List.mem_cons.mp hb with rfl | hb2
    · exact keyLe_exRec12
    · cases hb2
  · simp

/-! ## Claim theorems -/

/-- C8: `plugin_count_output` reports the total number of Result Records as
`complete_count` and the queued Work Items plus the busy workers as
`left_count`; in particular 3 records, 2 work items and 1 busy worker give
`{complete_count := 3, left_count := 3}`. -/
theorem claim8_progress_accounting :
    (∀ (db : List PluginOutput) (works : List Work) (busy_workers : Nat),
      plugin_count_output db works busy_workers =
        { complete_count := get_count db,
          left_count := get_count works + busy_workers }) ∧
    plugin_count_output [exRec1, exRec2, exRec3] [⟨1, "a"⟩, ⟨1, "b"⟩] 1 =
      { complete_count := 3, left_count := 3 } :=
  ⟨fun _ _ _ => rfl, rfl⟩

/-- C9: a record stored by `save_plugin_output` or `save_partial_output`
under the saved plugin's natural key has a non-null `output_path` only if the
plugin's artifact directory existed on disk at save time, and a null
`output_path` whenever that directory did not exist. -/
theorem claim9_output_path_not_dangling (plugin : Plugin)
    (output message : String) (target_id : Int) (cfg : Config)
    (fs : List String) (db : List PluginOutput) :
    (∀ r ∈ save_plugin_output plugin output target_id cfg fs db,
      natKeyEq (mkPluginOutput plugin output none target_id cfg fs) r = true →
        (r.output_path ≠ none →
          os_path_exists (cfg.plugin_output_dir plugin) fs = true) ∧
        (os_path_exists (cfg.plugin_output_dir plugin) fs = false →
          r.output_path = none)) ∧
    (∀ r ∈ save_partial_output plugin output message target_id cfg fs db,
      natKeyEq (mkPluginOutput plugin output (some message) target_id cfg fs) r = true →
        (r.output_path ≠ none →
          os_path_exists (cfg.plugin_output_dir plugin) fs = true) ∧
        (os_path_exists (cfg.plugin_output_dir plugin) fs = false →
          r.output_path = none)) := by
  constructor
  all_goals
    intro r hr hk
    have hreq := db_merge_mem_key hr hk
    subst hreq
    unfold mkPluginOutput
    cases hex : os_path_exists (cfg.plugin_output_dir plugin) fs
    · simp [hex]
    · simp [hex]

/-- C9 witness: saving with an empty filesystem stores a null path. -/
theorem claim9_witness :
    (∀ r ∈ save_plugin_output exPlugin1 "o" 1 exCfg [] [],
      natKeyEq (mkPluginOutput exPlugin1 "o" none 1 exCfg []) r = true →
        (r.output_path ≠ none →
          os_path_exists (exCfg.plugin_output_dir exPlugin1) [] = true) ∧
        (os_path_exists (exCfg.plugin_output_dir exPlugin1) [] = false →
          r.output_path = none)) ∧
    (∀ r ∈ save_partial_output exPlugin1 "o" "m" 1 exCfg [] [],
      natKeyEq (mkPluginOutput exPlugin1 "o" (some "m") 1 exCfg []) r = true →
        (r.output_path ≠ none →
          os_path_exists (exCfg.plugin_output_dir exPlugin1) [] = true) ∧
        (os_path_exists (exCfg.plugin_output_dir exPlugin1) [] = false →
          r.output_path = none)) :=
  claim9_output_path_not_dangling exPlugin1 "o" "m" 1 exCfg [] []

/-- C1: saving twice under the same natural key (same target and same plugin
group, type and code) leaves exactly one record with that key, and that
record carries the second call's field values. -/
theorem claim1_save_full_idempotent (p1 p2 : Plugin) (o1 o2 : String)
    (target_id : Int) (cfg1 cfg2 : Config) (fs1 fs2 : List String)
    (db : List PluginOutput) (hu : keyUnique db)
    (hg : p1.group = p2.group) (ht : p1.type = p2.type) (hc : p1.code = p2.code) :
    (save_plugin_output p2 o2 target_id cfg2 fs2
        (save_plugin_output p1 o1 target_id cfg1 fs1 db)).countP
      (fun r => natKeyEq (mkPluginOutput p2 o2 none target_id cfg2 fs2) r) = 1 ∧
    ∀ r ∈ save_plugin_output p2 o2 target_id cfg2 fs2
        (save_plugin_output p1 o1 target_id cfg1 fs1 db),
      natKeyEq (mkPluginOutput p2 o2 none target_id cfg2 fs2) r = true →
        r = mkPluginOutput p2 o2 none target_id cfg2 fs2 := by
  have hkeys : (fun r => natKeyEq (mkPluginOutput p2 o2 none target_id cfg2 fs2) r) =
      (fun r => natKeyEq (mkPluginOutput p1 o1 none target_id cfg1 fs1) r) := by
    funext r
    unfold natKeyEq mkPluginOutput
    rw [hg, ht, hc]
  constructor
  · unfold save_plugin_output
    apply db_merge_countP_key
    rw [hkeys]
    exact le_of_eq (db_merge_countP_key
      (hu (mkPluginOutput p1 o1 none target_id cfg1 fs1)))
  · intro r hr hk
    exact db_merge_mem_key hr hk

/-- C1 witness: two saves of the same plugin key into an empty store. -/
theorem claim1_witness :
    (save_plugin_output exPlugin2 "o2" 1 exCfg []
        (save_plugin_output exPlugin1 "o1" 1 exCfg [] [])).countP
      (fun r => natKeyEq (mkPluginOutput exPlugin2 "o2" none 1 exCfg []) r) = 1 ∧
    ∀ r ∈ save_plugin_output exPlugin2 "o2" 1 exCfg []
        (save_plugin_output exPlugin1 "o1" 1 exCfg [] []),
      natKeyEq (mkPluginOutput exPlugin2 "o2" none 1 exCfg []) r = true →
        r = mkPluginOutput exPlugin2 "o2" none 1 exCfg [] :=
  claim1_save_full_idempotent exPlugin1 exPlugin2 "o1" "o2" 1 exCfg exCfg [] [] []
    (fun x => by simp) rfl rfl rfl

/-- C2 counterexample: the filter `{status: ""}` maps `status` to a string,
so under the claim a returned record must have `status = ""`; the code treats
the empty string as falsy and returns `exRec1` although its status is
`"done"`. -/
theorem claim2_counterexample :
    poutput_gen_query { status := some (.str "") } 1 false [exRec1] =
      .ok [exRec1] ∧ exRec1.status ≠ "" := by
  constructor
  · have hbase : poutput_base_query { status := some (.str "") } 1 false [exRec1] =
        .ok [exRec1] :=
      @base_query_of_sorted _ _ _ [exRec1] [exRec1] rfl rfl pairwise_exRec1
    rw [gen_query_no_pagination rfl rfl, hbase]
  · decide

/-- C2 (amended): a successful paginationless query returns exactly the
records of the target satisfying the conjunctive per-field predicates, where
a field holding the empty string or the empty list imposes no constraint, a
non-empty single string means equality and a non-empty list means
membership. -/
theorem claim2_query_filter_semantics (fd : FilterData) (target_id : Int)
    (db l : List PluginOutput) (ho : fd.offset = none) (hl : fd.limit = none)
    (h : poutput_gen_query fd target_id false db = .ok l) (r : PluginOutput) :
    r ∈ l ↔ r ∈ db ∧ recordMatches fd target_id r = true := by
  rw [gen_query_no_pagination ho hl] at h
  exact base_query_ok_mem h r

/-- C2 witness: the empty filter on a one-record store returns that record,
which trivially satisfies the empty conjunction. -/
theorem claim2_witness :
    exRec1 ∈ [exRec1] ↔
      exRec1 ∈ [exRec1] ∧ recordMatches emptyFilter 1 exRec1 = true :=
  claim2_query_filter_semantics emptyFilter 1 [exRec1] [exRec1] rfl rfl
    (by
      rw [gen_query_no_pagination rfl rfl]
      exact @base_query_of_sorted _ _ _ [exRec1] [exRec1] rfl rfl pairwise_exRec1)
    exRec1

/-- C7 counterexample: the empty string is not integer-parseable, yet a query
whose `user_rank` maps to it raises nothing and returns the full result (the
field is falsy and skipped). -/
theorem claim7_counterexample :
    pyInt? "" = none ∧
    get_all_poutputs { user_rank := some (.str "") } 1 [exRec1] =
      .ok [exRec1] := by
  constructor
  · decide
  · unfold get_all_poutputs
    have hbase : poutput_base_query { user_rank := some (.str "") } 1 false [exRec1] =
        .ok [exRec1] :=
      @base_query_of_sorted _ _ _ [exRec1] [exRec1] rfl rfl pairwise_exRec1
    rw [gen_query_no_pagination rfl rfl, hbase]

/-- C7 (amended): when `user_rank` or `owtf_rank` maps to a truthy
(non-empty) string that does not parse as an integer, or to a list containing
a string that does not parse, both the read query and the bulk delete raise
the typed invalid-parameter error before touching the record store or the
filesystem. -/
theorem claim7_numeric_filter_rejection (fd : FilterData) (target_id : Int)
    (db : List PluginOutput) (cfg : Config) (fs : List String)
    (hbad :
      ((∃ s, fd.user_rank = some (.str s) ∧ s ≠ "" ∧ pyInt? s = none) ∨
       (∃ xs x, fd.user_rank = some (.list xs) ∧ x ∈ xs ∧ pyInt? x = none)) ∨
      ((∃ s, fd.owtf_rank = some (.str s) ∧ s ≠ "" ∧ pyInt? s = none) ∨
       (∃ xs x, fd.owtf_rank = some (.list xs) ∧ x ∈ xs ∧ pyInt? x = none))) :
    get_all_poutputs fd target_id db =
      .error ⟨"Integer has to be provided for integer fields"⟩ ∧
    delete_all_poutput fd target_id cfg db fs =
      .error ⟨"Integer has to be provided for integer fields"⟩ := by
  constructor
  · unfold get_all_poutputs
    exact gen_query_error (base_query_error target_id false db hbad)
  · unfold delete_all_poutput
    rw [gen_query_error (base_query_error target_id true db hbad)]

/-- C7 witness: the filter `{user_rank: "x"}` is rejected by both paths. -/
theorem claim7_witness :
    get_all_poutputs { user_rank := some (.str "x") } 1 [exRec1] =
      .error ⟨"Integer has to be provided for integer fields"⟩ ∧
    delete_all_poutput { user_rank := some (.str "x") } 1 exCfg [exRec1] [] =
      .error ⟨"Integer has to be provided for integer fields"⟩ :=
  claim7_numeric_filter_rejection { user_rank := some (.str "x") } 1 [exRec1]
    exCfg [] (Or.inl (Or.inl ⟨"x", rfl, by decide, by decide⟩))

/-- C6 counterexample: a single-valued (non-list) `limit` of `"1"` is ignored
by the code — both records come back — while the claim says the value is used
as the integer bound, which would keep only the first record. -/
theorem claim6_counterexample :
    poutput_gen_query { limit := some (.str "1") } 1 false [exRec1, exRec2] =
      .ok [exRec1, exRec2] ∧
    List.take 1 [exRec1, exRec2] ≠ [exRec1, exRec2] := by
  constructor
  · have hbase : poutput_base_query { limit := some (.str "1") } 1 false
        [exRec1, exRec2] = .ok [exRec1, exRec2] :=
      @base_query_of_sorted _ _ _ [exRec1, exRec2] [exRec1, exRec2]
        rfl rfl pairwise_exRec12
    unfold poutput_gen_query
    rw [hbase, except_bind_ok, applyOffset_none, except_bind_ok, applyLimit_str]
  · decide

/-- C6 (amended): pagination is applied last, after the ordered base query:
absent `offset`/`limit` values are a no-op, single (non-list) values are
ignored, and list values use their first element, parsed as an integer, as
the drop/take bound. -/
theorem claim6_pagination (fd : FilterData) (target_id : Int)
    (db q : List PluginOutput)
    (hq : poutput_base_query fd target_id false db = .ok q) :
    List.Pairwise (fun a b => keyLe a b = true) q ∧
    (fd.offset = none → fd.limit = none →
      poutput_gen_query fd target_id false db = .ok q) ∧
    (∀ s t, fd.offset = some (.str s) → fd.limit = some (.str t) →
      poutput_gen_query fd target_id false db = .ok q) ∧
    (∀ x xs n, fd.offset = some (.list (x :: xs)) → pyInt? x = some n →
      fd.limit = none →
      poutput_gen_query fd target_id false db = .ok (q.drop n.toNat)) ∧
    (∀ x xs n, fd.offset = none → fd.limit = some (.list (x :: xs)) →
      pyInt? x = some n →
      poutput_gen_query fd target_id false db = .ok (q.take n.toNat)) ∧
    (∀ xo xso no2 xl xsl nl, fd.offset = some (.list (xo :: xso)) →
      pyInt? xo = some no2 → fd.limit = some (.list (xl :: xsl)) →
      pyInt? xl = some nl →
      poutput_gen_query fd target_id false db =
        .ok ((q.drop no2.toNat).take nl.toNat)) := by
  refine ⟨?_, ?_, ?_, ?_, ?_, ?_⟩
  · rcases base_query_ok_shape hq with ⟨q0, rfl⟩
    exact List.sorted_mergeSort keyLe_trans keyLe_total q0
  · intro ho hl
    rw [gen_query_no_pagination ho hl]
    exact hq
  · intro s t ho hl
    unfold poutput_gen_query
    rw [hq, except_bind_ok, ho, applyOffset_str, except_bind_ok, hl, applyLimit_str]
  · intro x xs n ho hpx hl
    unfold poutput_gen_query
    rw [hq, except_bind_ok, ho, applyOffset_list xs q hpx, except_bind_ok, hl,
      applyLimit_none]
  · intro x xs n ho hl hpx
    unfold poutput_gen_query
    rw [hq, except_bind_ok, ho, applyOffset_none, except_bind_ok, hl,
      applyLimit_list xs q hpx]
  · intro xo xso no2 xl xsl nl ho hpo hl hpl
    unfold poutput_gen_query
    rw [hq, except_bind_ok, ho, applyOffset_list xso q hpo, except_bind_ok, hl,
      applyLimit_list xsl _ hpl]

/-- C6 witness: pagination facts instantiated on a concrete sorted store. -/
theorem claim6_witness :
    List.Pairwise (fun a b => keyLe a b = true) [exRec1, exRec2] ∧
    (({ offset := some (.list ["1"]), limit := some (.list ["1"]) } : FilterData).offset = none →
      ({ offset := some (.list ["1"]), limit := some (.list ["1"]) } : FilterData).limit = none →
      poutput_gen_query { offset := some (.list ["1"]), limit := some (.list ["1"]) } 1 false
        [exRec1, exRec2] = .ok [exRec1, exRec2]) ∧
    (∀ s t,
      ({ offset := some (.list ["1"]), limit := some (.list ["1"]) } : FilterData).offset = some (.str s) →
      ({ offset := some (.list ["1"]), limit := some (.list ["1"]) } : FilterData).limit = some (.str t) →
      poutput_gen_query { offset := some (.list ["1"]), limit := some (.list ["1"]) } 1 false
        [exRec1, exRec2] = .ok [exRec1, exRec2]) ∧
    (∀ x xs n,
      ({ offset := some (.list ["1"]), limit := some (.list ["1"]) } : FilterData).offset = some (.list (x :: xs)) →
      pyInt? x = some n →
      ({ offset := some (.list ["1"]), limit := some (.list ["1"]) } : FilterData).limit = none →
      poutput_gen_query { offset := some (.list ["1"]), limit := some (.list ["1"]) } 1 false
        [exRec1, exRec2] = .ok (List.drop n.toNat [exRec1, exRec2])) ∧
    (∀ x xs n,
      ({ offset := some (.list ["1"]), limit := some (.list ["1"]) } : FilterData).offset = none →
      ({ offset := some (.list ["1"]), limit := some (.list ["1"]) } : FilterData).limit = some (.list (x :: xs)) →
      pyInt? x = some n →
      poutput_gen_query { offset := some (.list ["1"]), limit := some (.list ["1"]) } 1 false
        [exRec1, exRec2] = .ok (List.take n.toNat [exRec1, exRec2])) ∧
    (∀ xo xso no2 xl xsl nl,
      ({ offset := some (.list ["1"]), limit := some (.list ["1"]) } : FilterData).offset = some (.list (xo :: xso)) →
      pyInt? xo = some no2 →
      ({ offset := some (.list ["1"]), limit := some (.list ["1"]) } : FilterData).limit = some (.list (xl :: xsl)) →
      pyInt? xl = some nl →
      poutput_gen_query { offset := some (.list ["1"]), limit := some (.list ["1"]) } 1 false
        [exRec1, exRec2] =
        .ok (List.take nl.toNat (List.drop no2.toNat [exRec1, exRec2]))) :=
  claim6_pagination { offset := some (.list ["1"]), limit := some (.list ["1"]) } 1
    [exRec1, exRec2] [exRec1, exRec2]
    (@base_query_of_sorted _ _ _ [exRec1, exRec2] [exRec1, exRec2]
      rfl rfl pairwise_exRec12)

/-- C3: deleting with the empty filter removes every record of the target
from the table, removes the artifact directory of every removed record whose
path is set and whose directory existed, and performs all tree removals
before the database delete and the commit. -/
theorem claim3_delete_completeness (target_id : Int) (cfg : Config)
    (db : List PluginOutput) (fs : List String) :
    ∃ (db2 : List PluginOutput) (fs2 : List String) (evs : List DelEvent),
      delete_all_poutput emptyFilter target_id cfg db fs =
        .ok (db2, fs2, evs ++ [DelEvent.dbDelete, DelEvent.commit]) ∧
      db2.countP (fun r => r.target_id == target_id) = 0 ∧
      (∀ e ∈ evs, ∃ p, e = DelEvent.rmTree p) ∧
      (∀ r ∈ db, r.target_id = target_id → ∀ p, r.output_path = some p → p ≠ "" →
        os_path_join cfg.output_dir_target p ∈ fs →
        os_path_join cfg.output_dir_target p ∉ fs2) := by
  refine ⟨db.filter (fun r =>
      !((db.filter (fun x => x.target_id == target_id)).contains r)),
    ((db.filter (fun x => x.target_id == target_id)).foldl
      (deleteArtifactStep cfg) (fs, [])).1,
    ((db.filter (fun x => x.target_id == target_id)).foldl
      (deleteArtifactStep cfg) (fs, [])).2, ?_, ?_, ?_, ?_⟩
  · unfold delete_all_poutput
    rw [gen_query_empty_delete]
  · rw [List.countP_eq_zero]
    intro r hr
    rcases List.mem_filter.mp hr with ⟨hrdb, hrnc⟩
    intro htid
    have hrin : r ∈ db.filter (fun x => x.target_id == target_id) :=
      List.mem_filter.mpr ⟨hrdb, htid⟩
    rw [Bool.not_eq_true', List.contains_eq_any_beq] at hrnc
    have : (db.filter (fun x => x.target_id == target_id)).any (fun x => r == x) = true :=
      List.any_eq_true.mpr ⟨r, hrin, by simp⟩
    rw [this] at hrnc
    cases hrnc
  · exact deleteArtifact_fold_events cfg _ (fs, []) (by intro e he; cases he)
  · intro r hr htid p hp hps hmem
    exact deleteArtifact_fold_removes cfg _ (fs, []) r p
      (List.mem_filter.mpr ⟨hr, by simp [htid]⟩) hp hps

/-- C3 witness: a concrete delete on a one-record store with an artifact. -/
theorem claim3_witness :
    ∃ (db2 : List PluginOutput) (fs2 : List String) (evs : List DelEvent),
      delete_all_poutput emptyFilter 1 exCfg [exRec2] ["/root/out/p1"] =
        .ok (db2, fs2, evs ++ [DelEvent.dbDelete, DelEvent.commit]) ∧
      db2.countP (fun r => r.target_id == (1 : Int)) = 0 ∧
      (∀ e ∈ evs, ∃ p, e = DelEvent.rmTree p) ∧
      (∀ r ∈ [exRec2], r.target_id = (1 : Int) → ∀ p, r.output_path = some p → p ≠ "" →
        os_path_join exCfg.output_dir_target p ∈ ["/root/out/p1"] →
        os_path_join exCfg.output_dir_target p ∉ fs2) :=
  claim3_delete_completeness 1 exCfg [exRec2] ["/root/out/p1"]

/-- C5: updating an existing record with a user-rank patch parsing to `N ≥ 0`
succeeds, and afterwards the record at that natural key has `user_rank = N`
and `owtf_rank = -1`, whatever `owtf_rank` held before. -/
theorem claim5_rank_exclusivity (g t c : String) (target_id : Int)
    (db : List PluginOutput) (r : PluginOutput) (s : String) (n : Int)
    (hg : g ≠ "") (ht : t ≠ "") (hc : c ≠ "")
    (hu : keyUnique db) (hr : r ∈ db)
    (hk1 : r.target_id = target_id) (hk2 : r.plugin_group = g)
    (hk3 : r.plugin_type = t) (hk4 : r.plugin_code = c)
    (hs : pyInt? s = some n) (_hn : 0 ≤ n) :
    ∃ db2, update_poutput g t c { user_rank := some (.str s) } target_id db =
        .ok db2 ∧
      (∀ x ∈ db2, natKeyEq r x = true → x.user_rank = n ∧ x.owtf_rank = -1) ∧
      (∃ x, x ∈ db2 ∧ natKeyEq r x = true) := by
  have hsne : s ≠ "" := pyInt?_ne_empty hs
  set pd : FilterData :=
    { plugin_group := some (.str g), plugin_type := some (.str t),
      plugin_code := some (.str c) } with hpd
  have hbase0 : poutput_base_query pd target_id false db =
      .ok ((strFilterChain pd target_id db).mergeSort keyLe) := rfl
  have hmem : ∀ x, x ∈ (strFilterChain pd target_id db).mergeSort keyLe ↔
      x ∈ db ∧ recordMatches pd target_id x = true :=
    base_query_ok_mem hbase0
  have hmatch : ∀ x, recordMatches pd target_id x = true ↔ natKeyEq r x = true := by
    intro x
    unfold recordMatches natKeyEq strFieldMatches intFieldMatches
    simp only [hpd]
    rw [if_neg ht, if_neg hg, if_neg hc]
    simp only [Bool.and_eq_true, Bool.and_true, Bool.true_and, beq_iff_eq]
    constructor <;> intro h <;> simp_all
  have hall : ∀ x ∈ (strFilterChain pd target_id db).mergeSort keyLe,
      natKeyEq r x = true := by
    intro x hx
    exact (hmatch x).mp ((hmem x).mp hx).2
  have hrin : r ∈ (strFilterChain pd target_id db).mergeSort keyLe :=
    (hmem r).mpr ⟨hr, (hmatch r).mpr (natKeyEq_refl r)⟩
  have hcle : ((strFilterChain pd target_id db).mergeSort keyLe).countP
      (fun x => natKeyEq r x) ≤ 1 := by
    rw [List.Perm.countP_eq _ (List.mergeSort_perm (strFilterChain pd target_id db) keyLe)]
    exact le_trans
      (List.Sublist.countP_le _ (strFilterChain_sublist pd target_id db)) (hu r)
  have hlen1 : ((strFilterChain pd target_id db).mergeSort keyLe).length = 1 := by
    have hlc : ((strFilterChain pd target_id db).mergeSort keyLe).countP
        (fun x => natKeyEq r x) =
        ((strFilterChain pd target_id db).mergeSort keyLe).length :=
      List.countP_eq_length.mpr hall
    have hpos : 0 < ((strFilterChain pd target_id db).mergeSort keyLe).length :=
      List.length_pos.mpr (List.ne_nil_of_mem hrin)
    omega
  have hsingle : (strFilterChain pd target_id db).mergeSort keyLe = [r] := by
    rcases List.length_eq_one.mp hlen1 with ⟨a, ha⟩
    rw [ha]
    rw [ha] at hrin
    rcases List.mem_singleton.mp hrin with rfl
    rfl
  have hq : poutput_gen_query pd target_id false db = .ok [r] := by
    rw [gen_query_no_pagination rfl rfl, hbase0, hsingle]
  have hupd : update_poutput g t c { user_rank := some (.str s) } target_id db =
      .ok (db_merge db { r with user_rank := n, owtf_rank := -1 }) := by
    unfold update_poutput
    simp only []
    rw [← hpd, hq]
    simp only [List.head?_cons]
    simp [truthy, hsne, hs]
  refine ⟨db_merge db { r with user_rank := n, owtf_rank := -1 }, hupd, ?_, ?_⟩
  · intro x hx hkx
    have hx2 : x = { r with user_rank := n, owtf_rank := -1 } :=
      db_merge_mem_key hx (by simpa [natKeyEq] using hkx)
    subst hx2
    exact ⟨rfl, rfl⟩
  · refine ⟨{ r with user_rank := n, owtf_rank := -1 },
      db_merge_self_mem db _, ?_⟩
    simp [natKeyEq]

/-- C5 witness: patching fixture record 1 with user rank 4. -/
theorem claim5_witness :
    ∃ db2, update_poutput "g1" "t1" "c1" { user_rank := some (.str "4") } 1
        [exRec1] = .ok db2 ∧
      (∀ x ∈ db2, natKeyEq exRec1 x = true →
        x.user_rank = 4 ∧ x.owtf_rank = -1) ∧
      (∃ x, x ∈ db2 ∧ natKeyEq exRec1 x = true) :=
  claim5_rank_exclusivity "g1" "t1" "c1" 1 [exRec1] exRec1 "4" 4
    (by decide) (by decide) (by decide) (keyUnique_singleton exRec1)
    (List.mem_singleton.mpr rfl) rfl rfl rfl rfl (by decide) (by decide)

/-- C4: severity aggregation counts exactly the records whose target belongs
to the session, bucketing by `user_rank` when set and `owtf_rank` otherwise,
excluding doubly-unset records, and returns the six fixed buckets reversed
(Critical first) in the result envelope. -/
theorem claim4_severity_histogram (session_id : Int) (targets : List Target)
    (db : List PluginOutput)
    (hr : ∀ r ∈ db, (sessionTargetIds session_id targets).contains r.target_id = true →
      -1 ≤ r.user_rank ∧ r.user_rank ≤ 5 ∧ -1 ≤ r.owtf_rank ∧ r.owtf_rank ≤ 5) :
    get_severity_freq session_id targets db =
      some ⟨[
        ⟨5, "Critical", (severityCount (sessionTargetIds session_id targets) db 5 : Int)⟩,
        ⟨4, "High", (severityCount (sessionTargetIds session_id targets) db 4 : Int)⟩,
        ⟨3, "Medium", (severityCount (sessionTargetIds session_id targets) db 3 : Int)⟩,
        ⟨2, "Low", (severityCount (sessionTargetIds session_id targets) db 2 : Int)⟩,
        ⟨1, "Info", (severityCount (sessionTargetIds session_id targets) db 1 : Int)⟩,
        ⟨0, "Passing", (severityCount (sessionTargetIds session_id targets) db 0 : Int)⟩]⟩ := by
  rcases severity_fold (sessionTargetIds session_id targets) db
      initSeverityFrequency rfl hr with ⟨out, hfold, hlen, hout⟩
  unfold get_severity_freq
  simp only []
  rw [hfold]
  have hrev : out.reverse = [
      ⟨5, "Critical", (severityCount (sessionTargetIds session_id targets) db 5 : Int)⟩,
      ⟨4, "High", (severityCount (sessionTargetIds session_id targets) db 4 : Int)⟩,
      ⟨3, "Medium", (severityCount (sessionTargetIds session_id targets) db 3 : Int)⟩,
      ⟨2, "Low", (severityCount (sessionTargetIds session_id targets) db 2 : Int)⟩,
      ⟨1, "Info", (severityCount (sessionTargetIds session_id targets) db 1 : Int)⟩,
      ⟨0, "Passing", (severityCount (sessionTargetIds session_id targets) db 0 : Int)⟩] := by
    apply List.ext_getElem
    · simp [hlen]
    · intro i h1 h2
      rw [List.getElem_reverse]
      have h6 : i < 6 := by
        rw [List.length_reverse, hlen] at h1
        exact h1
      interval_cases i <;>
        · rw [hout _ (by omega) (by rw [show initSeverityFrequency.length = 6 from rfl]; omega)]
          simp [initSeverityFrequency, hlen]
  show some (SeverityFreqResult.mk out.reverse) = _
  rw [hrev]

/-- C4 witness: the spec section 8 example — session targets 1 and 2, record
A (target 1, user rank 4), record B (target 2, owtf rank 2), record C
(target 3, user rank 5, outside the session). -/
theorem claim4_witness :
    get_severity_freq 10
        [⟨1, [10]⟩, ⟨2, [10]⟩, ⟨3, [11]⟩]
        [⟨"ka", "ca", "ga", "ta", "o", none, "s", "e", "done", 1, none, 4, -1, none⟩,
         ⟨"kb", "cb", "gb", "tb", "o", none, "s", "e", "done", 2, none, -1, 2, none⟩,
         ⟨"kc", "cc", "gc", "tc", "o", none, "s", "e", "done", 3, none, 5, -1, none⟩] =
      some ⟨[
        ⟨5, "Critical", (severityCount (sessionTargetIds 10 [⟨1, [10]⟩, ⟨2, [10]⟩, ⟨3, [11]⟩])
          [⟨"ka", "ca", "ga", "ta", "o", none, "s", "e", "done", 1, none, 4, -1, none⟩,
           ⟨"kb", "cb", "gb", "tb", "o", none, "s", "e", "done", 2, none, -1, 2, none⟩,
           ⟨"kc", "cc", "gc", "tc", "o", none, "s", "e", "done", 3, none, 5, -1, none⟩] 5 : Int)⟩,
        ⟨4, "High", (severityCount (sessionTargetIds 10 [⟨1, [10]⟩, ⟨2, [10]⟩, ⟨3, [11]⟩])
          [⟨"ka", "ca", "ga", "ta", "o", none, "s", "e", "done", 1, none, 4, -1, none⟩,
           ⟨"kb", "cb", "gb", "tb", "o", none, "s", "e", "done", 2, none, -1, 2, none⟩,
           ⟨"kc", "cc", "gc", "tc", "o", none, "s", "e", "done", 3, none, 5, -1, none⟩] 4 : Int)⟩,
        ⟨3, "Medium", (severityCount (sessionTargetIds 10 [⟨1, [10]⟩, ⟨2, [10]⟩, ⟨3, [11]⟩])
          [⟨"ka", "ca", "ga", "ta", "o", none, "s", "e", "done", 1, none, 4, -1, none⟩,
           ⟨"kb", "cb", "gb", "tb", "o", none, "s", "e", "done", 2, none, -1, 2, none⟩,
           ⟨"kc", "cc", "gc", "tc", "o", none, "s", "e", "done", 3, none, 5, -1, none⟩] 3 : Int)⟩,
        ⟨2, "Low", (severityCount (sessionTargetIds 10 [⟨1, [10]⟩, ⟨2, [10]⟩, ⟨3, [11]⟩])
          [⟨"ka", "ca", "ga", "ta", "o", none, "s", "e", "done", 1, none, 4, -1, none⟩,
           ⟨"kb", "cb", "gb", "tb", "o", none, "s", "e", "done", 2, none, -1, 2, none⟩,
           ⟨"kc", "cc", "gc", "tc", "o", none, "s", "e", "done", 3, none, 5, -1, none⟩] 2 : Int)⟩,
        ⟨1, "Info", (severityCount (sessionTargetIds 10 [⟨1, [10]⟩, ⟨2, [10]⟩, ⟨3, [11]⟩])
          [⟨"ka", "ca", "ga", "ta", "o", none, "s", "e", "done", 1, none, 4, -1, none⟩,
           ⟨"kb", "cb", "gb", "tb", "o", none, "s", "e", "done", 2, none, -1, 2, none⟩,
           ⟨"kc", "cc", "gc", "tc", "o", none, "s", "e", "done", 3, none, 5, -1, none⟩] 1 : Int)⟩,
        ⟨0, "Passing", (severityCount (sessionTargetIds 10 [⟨1, [10]⟩, ⟨2, [10]⟩, ⟨3, [11]⟩])
          [⟨"ka", "ca", "ga", "ta", "o", none, "s", "e", "done", 1, none, 4, -1, none⟩,
           ⟨"kb", "cb", "gb", "tb", "o", none, "s", "e", "done", 2, none, -1, 2, none⟩,
           ⟨"kc", "cc", "gc", "tc", "o", none, "s", "e", "done", 3, none, 5, -1, none⟩] 0 : Int)⟩]⟩ :=
  claim4_severity_histogram 10 [⟨1, [10]⟩, ⟨2, [10]⟩, ⟨3, [11]⟩] _ (by decide)

/-- C10 counterexample: `exRecRankNeg7` has a rank of -2 or less, yet the
aggregation fails with an out-of-range index (`none`) instead of silently
incrementing an end-counted bucket — Python wraps negative indices only down
to -(list length). -/
theorem claim10_counterexample :
    exRecRankNeg7.user_rank ≤ -2 ∧
    get_severity_freq 10 [⟨1, [10]⟩] [exRecRankNeg7] = none := by
  exact ⟨by decide, by decide⟩

/-- C10 (amended): with both ranks in `[-1, 5]` for every record the
aggregation never fails; any in-session record whose effective rank is 6 or
more, or -7 or less, makes the whole operation fail with an out-of-range
index; when every in-session record's effective rank lies in Python's valid
index range `[-6, 5]`, the operation succeeds and each record with a set
(non `-1`) effective rank increments the bucket its — possibly end-counted —
index resolves to; in particular rank -2 increments the High bucket. -/
theorem claim10_severity_index_behavior :
    (∀ (session_id : Int) (targets : List Target) (db : List PluginOutput),
      (∀ r ∈ db, -1 ≤ r.user_rank ∧ r.user_rank ≤ 5 ∧
        -1 ≤ r.owtf_rank ∧ r.owtf_rank ≤ 5) →
      (get_severity_freq session_id targets db).isSome = true) ∧
    (∀ (session_id : Int) (targets : List Target) (db : List PluginOutput)
      (r : PluginOutput), r ∈ db →
      (sessionTargetIds session_id targets).contains r.target_id = true →
      (6 ≤ effRank r ∨ effRank r ≤ -7) →
      get_severity_freq session_id targets db = none) ∧
    (∀ (session_id : Int) (targets : List Target) (db : List PluginOutput),
      (∀ r ∈ db, (sessionTargetIds session_id targets).contains r.target_id = true →
        -6 ≤ effRank r ∧ effRank r ≤ 5) →
      get_severity_freq session_id targets db =
        some ⟨[
          ⟨5, "Critical", (severityCountWrap (sessionTargetIds session_id targets) db 5 : Int)⟩,
          ⟨4, "High", (severityCountWrap (sessionTargetIds session_id targets) db 4 : Int)⟩,
          ⟨3, "Medium", (severityCountWrap (sessionTargetIds session_id targets) db 3 : Int)⟩,
          ⟨2, "Low", (severityCountWrap (sessionTargetIds session_id targets) db 2 : Int)⟩,
          ⟨1, "Info", (severityCountWrap (sessionTargetIds session_id targets) db 1 : Int)⟩,
          ⟨0, "Passing", (severityCountWrap (sessionTargetIds session_id targets) db 0 : Int)⟩]⟩) ∧
    get_severity_freq 10 [⟨1, [10]⟩] [exRecRankNeg2] =
      some ⟨[⟨5, "Critical", 0⟩, ⟨4, "High", 1⟩, ⟨3, "Medium", 0⟩,
             ⟨2, "Low", 0⟩, ⟨1, "Info", 0⟩, ⟨0, "Passing", 0⟩]⟩ := by
  refine ⟨?_, ?_, ?_, by decide⟩
  · intro session_id targets db hranks
    rcases severity_fold (sessionTargetIds session_id targets) db
        initSeverityFrequency rfl (fun r hr _ => hranks r hr) with ⟨out, hfold, _, _⟩
    unfold get_severity_freq
    simp only []
    rw [hfold]
    rfl
  · intro session_id targets db r hr hc hbad
    have hfail := severity_fold_fails (sessionTargetIds session_id targets) db
      initSeverityFrequency rfl r hr hc hbad
    unfold get_severity_freq
    simp only []
    rw [hfail]
  · intro session_id targets db hw
    rcases severity_fold_wrap (sessionTargetIds session_id targets) db
        initSeverityFrequency rfl hw with ⟨out, hfold, hlen, hout⟩
    unfold get_severity_freq
    simp only []
    rw [hfold]
    have hrev : out.reverse = [
        ⟨5, "Critical", (severityCountWrap (sessionTargetIds session_id targets) db 5 : Int)⟩,
        ⟨4, "High", (severityCountWrap (sessionTargetIds session_id targets) db 4 : Int)⟩,
        ⟨3, "Medium", (severityCountWrap (sessionTargetIds session_id targets) db 3 : Int)⟩,
        ⟨2, "Low", (severityCountWrap (sessionTargetIds session_id targets) db 2 : Int)⟩,
        ⟨1, "Info", (severityCountWrap (sessionTargetIds session_id targets) db 1 : Int)⟩,
        ⟨0, "Passing", (severityCountWrap (sessionTargetIds session_id targets) db 0 : Int)⟩] := by
      apply List.ext_getElem
      · simp [hlen]
      · intro i h1 h2
        rw [List.getElem_reverse]
        have h6 : i < 6 := by
          rw [List.length_reverse, hlen] at h1
          exact h1
        interval_cases i <;>
          · rw [hout _ (by omega) (by rw [show initSeverityFrequency.length = 6 from rfl]; omega)]
            simp [initSeverityFrequency, hlen]
    show some (SeverityFreqResult.mk out.reverse) = _
    rw [hrev]

/-- C10 witness: the three universal regimes exercised — in-range ranks
succeed, rank 6 fails, rank -7 fails. -/
theorem claim10_witness :
    (get_severity_freq 10 [⟨1, [10]⟩] [exRec1]).isSome = true ∧
    get_severity_freq 10 [⟨1, [10]⟩] [exRecRank6] = none ∧
    get_severity_freq 10 [⟨1, [10]⟩] [exRecRankNeg7] = none :=
  ⟨claim10_severity_index_behavior.1 10 [⟨1, [10]⟩] [exRec1] (by decide),
   claim10_severity_index_behavior.2.1 10 [⟨1, [10]⟩] [exRecRank6] exRecRank6
     (List.mem_singleton.mpr rfl) (by decide) (Or.inl (by decide)),
   claim10_severity_index_behavior.2.1 10 [⟨1, [10]⟩] [exRecRankNeg7] exRecRankNeg7
     (List.mem_singleton.mpr rfl) (by decide) (Or.inr (by decide))⟩

end Owtf
